import Mathlib

/-!
# goyagi: the vendored structured logger (`vendor/github.com/lob/logger-go`)

A shallow embedding of `logger.go` and `echo.go`.

* Go maps are reference values.  A `Logger` struct holds two references
  (`data`, `root`) into a heap of maps; struct copies share them.  The heap is
  explicit (`World.maps`), so that "the receiver is not changed" is a statement
  about the heap and not a triviality of a pure model.
* Everything the code reads from its surroundings (clock, host name,
  environment, runtime stack dump, random identifier) is an explicit input.
* The event builder of the logging library is not part of the sources; its
  model is marked as such below.
-/

namespace Goyagi

/-! ## Go values -/

/-- A Go `error` value: the text returned by `Error()` and, when the value also
implements `stackTracer`, the frames returned by `StackTrace()`, each frame
given by its `%+v` rendering. A nil error is `none : Option GoError`. -/
structure GoError where
  msg : String
  stackTrace : Option (List String)
  deriving DecidableEq, Repr

/-- The values of type `interface{}` that the package stores in a `Data` map:
strings, integers, byte slices (one character per byte), errors, the
floating-point millisecond count of a duration (kept as its nanoseconds), and
any other value, given by the JSON text it is written as. -/
inductive Value where
  | str (s : String)
  | int (n : Int)
  | bytes (b : List Char)
  | error (e : GoError)
  | millis (ns : Int)
  | other (json : String)
  deriving DecidableEq, Repr

/-- The Go type `Data` (`map[string]interface{}`): finitely many entries with
pairwise distinct keys. The order of `entries` is the order in which `range`
visits the map, which Go leaves unspecified; theorems quantify over every
`Data`, hence over every visiting order. A nil map and an empty map are both
the map without entries: `len` and `range` do not tell them apart. -/
structure Data where
  entries : List (String × Value)
  nodup : (entries.map Prod.fst).Nodup

/-- The map literal `Data{}`. -/
def Data.empty : Data := ⟨[], List.nodup_nil⟩

/-- Go `len(m)`. -/
def Data.len (m : Data) : Nat := m.entries.length

/-- The keys of a map. -/
def Data.keys (m : Data) : List String := m.entries.map Prod.fst

/-- Go `v, ok := m[k]`. -/
def Data.get (m : Data) (k : String) : Option Value :=
  (m.entries.find? (fun e => e.1 == k)).map Prod.snd

/-- Go `m[k] = v`: the entry for `k` is replaced, or added when absent. -/
def Data.set (m : Data) (k : String) (v : Value) : Data :=
  ⟨m.entries.filter (fun e => e.1 != k) ++ [(k, v)], by
    rw [List.map_append, List.nodup_append]
    refine ⟨(List.filter_sublist m.entries).map Prod.fst |>.nodup m.nodup, by simp, ?_⟩
    intro a ha hb
    simp only [List.map_cons, List.map_nil, List.mem_singleton] at hb
    subst hb
    simp only [List.mem_map, List.mem_filter] at ha
    obtain ⟨e, ⟨_, hne⟩, rfl⟩ := ha
    simp at hne⟩

/-- The map literal `Data{k1: v1, ..., kn: vn}`. -/
def Data.ofList (l : List (String × Value)) : Data :=
  l.foldl (fun m e => m.set e.1 e.2) Data.empty

/-- The right-biased merge of two maps: the entries of `b` are stored into `a`
one by one. -/
def Data.merge (a b : Data) : Data :=
  b.entries.foldl (fun m e => m.set e.1 e.2) a

/-! ## The heap of maps and the output -/

/-- A reference to a map on the heap. -/
abbrev Ref := Nat

/-- Where a logger writes: `os.Stdout` or some other `io.Writer`. -/
inductive Writer where
  | stdout
  | other (n : Nat)
  deriving DecidableEq, Repr

/-- Severity of an event. -/
inductive Level where
  | debug | info | warn | error | fatal
  deriving DecidableEq, Repr

/-- A rendered scalar of an event. -/
inductive Scalar where
  | str (s : String)
  | int (n : Int)
  | millis (ns : Int)
  | time (t : Int)
  | raw (json : String)
  deriving DecidableEq, Repr

/-- One field of an event: a key with a scalar, or a key with a nested object
(the result of `Event.Dict`). -/
inductive Field where
  | val (key : String) (v : Scalar)
  | dict (key : String) (fs : List (String × Scalar))
  deriving DecidableEq, Repr

/-- The key of a field. -/
def Field.key : Field → String
  | .val k _ => k
  | .dict k _ => k

/-- One event as written to a writer: its fields in the order written. -/
structure Entry where
  w : Writer
  fields : List Field
  deriving DecidableEq, Repr

/-- The mutable surroundings of the package: the heap of maps, what has been
written so far (oldest first), and whether `os.Exit` was called. -/
structure World where
  maps : List Data
  out : List Entry
  exited : Bool

/-- The map a reference points to. -/
def World.read (w : World) (r : Ref) : Data := w.maps.getD r Data.empty

/-- Allocation of a fresh empty map (`Data{}`): returns its reference. -/
def World.alloc (w : World) : Ref × World :=
  (w.maps.length, { w with maps := w.maps ++ [Data.empty] })

/-- The statement `m[k] = v` for the map at reference `r`. -/
def World.write (w : World) (r : Ref) (k : String) (v : Value) : World :=
  { w with maps := w.maps.set r ((w.read r).set k v) }

/-- The loop `for k, v := range src { dst[k] = v }` with `dst` on the heap. -/
def World.copyInto (w : World) (dst : Ref) (src : Data) : World :=
  src.entries.foldl (fun w e => w.write dst e.1 e.2) w

/-! ## The event builder of the logging library -/

/-- Modelled from the spec: the name a level is written under (`level` field of
the rendered event schema); the library's `Level.String` is not in the
sources. -/
def Level.String : Level → String
  | .debug => "debug"
  | .info => "info"
  | .warn => "warn"
  | .error => "error"
  | .fatal => "fatal"

/-- Modelled from the spec: the library's `zerolog.Logger`, absent from the
sources, as far as this package configures it: the writer and the context
fields written into every event (`host`, and `release` when set). The
timestamp hook of `With().Timestamp()` is installed on every logger the package
builds and is part of `Event.Msg`. -/
structure ZL where
  w : Writer
  context : List (String × Scalar)
  deriving DecidableEq, Repr

/-- Modelled from the spec: the library's `zerolog.Event`, absent from the
sources: an append-only buffer of fields, with the writer and level of the
logger call that opened it. -/
structure Event where
  w : Writer
  level : Level
  buf : List Field
  deriving DecidableEq, Repr

/-- Modelled from the spec: the library's event constructors `zl.Info()`,
`zl.Warn()`, ... (absent from the sources): a new event that starts with the
`level` field followed by the logger's context fields. The package never
changes the library's level threshold, so every event is enabled. -/
def ZL.newEvent (zl : ZL) (level : Level) : Event :=
  ⟨zl.w, level, Field.val "level" (.str level.String) :: zl.context.map (fun e => Field.val e.1 e.2)⟩

/-- Byte-wise lexicographic order on strings, the order of Go `sort.Strings`. -/
def strLe : List Char → List Char → Bool
  | [], _ => true
  | _ :: _, [] => false
  | a :: as, b :: bs =>
    if a.toNat < b.toNat then true
    else if b.toNat < a.toNat then false
    else strLe as bs

/-- Modelled from the spec: how the library (absent from the sources) writes
one `interface{}` value: strings and byte slices as text, an `error` as its
`Error()` text, numbers as numbers. -/
def appendValue : Value → Scalar
  | .str s => .str s
  | .int n => .int n
  | .bytes b => .str (String.mk b)
  | .error e => .str e.msg
  | .millis ns => .millis ns
  | .other json => .raw json

/-- Modelled from the spec: the library's `appendFields` (absent from the
sources): one field per entry of the map, keys in sorted order. -/
def appendFields (m : Data) : List (String × Scalar) :=
  (m.entries.insertionSort (fun a b => strLe a.1.data b.1.data)).map
    (fun e => (e.1, appendValue e.2))

/-- Modelled from the spec: the buffer of a `zerolog.Dict()` event (absent from
the sources). -/
abbrev Dict := List (String × Scalar)

/-- Modelled from the spec: `zerolog.Dict()`, absent from the sources. -/
def Dict.new : Dict := []

/-- Modelled from the spec: `Event.Fields` on a dict event (absent from the
sources): the fields of the map are appended to the buffer. The library keeps
an append-only buffer and does not look for a key already written. -/
def Dict.Fields (d : Dict) (m : Data) : Dict := d ++ appendFields m

/-- Modelled from the spec: `Event.Fields` (absent from the sources): the
fields of the map are appended to the event, which is changed in place (the
method has a pointer receiver and returns the receiver). -/
def Event.Fields (evt : Event) (m : Data) : Event :=
  { evt with buf := evt.buf ++ (appendFields m).map (fun e => Field.val e.1 e.2) }

/-- Modelled from the spec: `Event.Str`, absent from the sources. -/
def Event.Str (evt : Event) (key val : String) : Event :=
  { evt with buf := evt.buf ++ [Field.val key (.str val)] }

/-- Modelled from the spec: `Event.Int64`, absent from the sources. -/
def Event.Int64 (evt : Event) (key : String) (n : Int) : Event :=
  { evt with buf := evt.buf ++ [Field.val key (.int n)] }

/-- Modelled from the spec: `Event.Dict` (absent from the sources): the dict is
written as a nested object under `key`. -/
def Event.Dict (evt : Event) (key : String) (d : Dict) : Event :=
  { evt with buf := evt.buf ++ [Field.dict key d] }

/-- Modelled from the spec: what `Event.Msg` (absent from the sources) sends to
the writer: the timestamp hook writes the `timestamp` field, and the message is
written when it is not empty. -/
def Event.entry (evt : Event) (msg : String) (stamp : Int) : Entry :=
  let buf := evt.buf ++ [Field.val "timestamp" (.time stamp)]
  let buf := if msg ≠ "" then buf ++ [Field.val "message" (.str msg)] else buf
  ⟨evt.w, buf⟩

/-- Modelled from the spec: `Event.Msg` (absent from the sources): the entry
goes to the writer, and a fatal event then exits. -/
def Event.Msg (evt : Event) (msg : String) (stamp : Int) (w : World) : World :=
  { w with out := w.out ++ [evt.entry msg stamp],
           exited := w.exited || decide (evt.level = Level.fatal) }

/-! ## logger.go -/

/-- The struct `Logger`. The maps are held by reference. -/
structure Logger where
  zl : ZL
  id : String
  err : Option GoError
  data : Ref
  root : Ref
  deriving DecidableEq, Repr

/-- The constant `stackSize`, 4KB. -/
def stackSize : Nat := 4 <<< 10

/-- What `NewWithWriter` reads from the operating system: `os.Hostname()` and
the environment variable `RELEASE`. -/
structure OS where
  hostname : String
  release : String

/-- What one call of `log` reads: the two clock readings (`nanoseconds`, and
the timestamp hook) and the dump `runtime.Stack` would produce with an
unbounded buffer. -/
structure Env where
  nanos : Int
  stamp : Int
  runtimeStack : List Char

/-- The library logger `NewWithWriter` builds:
`zerolog.New(w).With().Timestamp().Str("host", host)`, with
`.Str("release", release)` when the release is set. -/
def newZL (os : OS) (wr : Writer) : ZL :=
  let host := os.hostname
  let release := os.release
  let ctx : List (String × Scalar) := [("host", .str host)]
  let ctx := if release ≠ "" then ctx ++ [("release", .str release)] else ctx
  ⟨wr, ctx⟩

/-- `NewWithWriter`: a logger on writer `wr` with two fresh empty maps. -/
def NewWithWriter (os : OS) (wr : Writer) (w : World) : Logger × World :=
  let zl := newZL os wr
  let (d, w) := w.alloc
  let (r, w) := w.alloc
  ({ zl := zl, id := "", err := none, data := d, root := r }, w)

/-- `New`: a logger on standard output. -/
def New (os : OS) (w : World) : Logger × World := NewWithWriter os Writer.stdout w

/-- `Logger.ID`: the receiver is a struct copy; its `id` is set. -/
def Logger.ID (log : Logger) (id : String) : Logger := { log with id := id }

/-- `Logger.Err`: the receiver is a struct copy; its `err` is set. -/
def Logger.Err (log : Logger) (err : Option GoError) : Logger := { log with err := err }

/-- `Logger.Data`: a fresh map receives the entries of the receiver's map and
then those of `data`; the copy points to it. -/
def Logger.Data (log : Logger) (data : Goyagi.Data) (w : World) : Logger × World :=
  let (newData, w) := w.alloc
  let w := w.copyInto newData (w.read log.data)
  let w := w.copyInto newData data
  ({ log with data := newData }, w)

/-- `Logger.Root`: as `Logger.Data`, for the `root` map. -/
def Logger.Root (log : Logger) (root : Goyagi.Data) (w : World) : Logger × World :=
  let (newRoot, w) := w.alloc
  let w := w.copyInto newRoot (w.read log.root)
  let w := w.copyInto newRoot root
  ({ log with root := newRoot }, w)

/-- The map literal `Data{"message": log.err, "stack": stack}`. -/
def errorFields (err : GoError) (stack : List Char) : Goyagi.Data :=
  (Data.empty.set "message" (.error err)).set "stack" (.bytes stack)

/-- `fmt.Sprintf("%+v", st)` for a stack trace: each frame on a new line. -/
def formatStackTrace (st : List String) : List Char :=
  (st.map (fun f => '\n' :: f.data)).flatten

/-- The stack text `log` attaches to an error: the error's own stack trace when
it implements `stackTracer`, otherwise what `runtime.Stack` writes into a
buffer of `stackSize` bytes. -/
def errorStack (err : GoError) (env : Env) : List Char :=
  match err.stackTrace with
  | some st => formatStackTrace st
  | none => env.runtimeStack.take stackSize

/-- The loop of `log` over the call-site field sets, on the pair
`(hasData, data)`. -/
def logFields (fields : List Goyagi.Data) (st : Bool × Dict) : Bool × Dict :=
  fields.foldl (fun st field => if field.len ≠ 0 then (true, Dict.Fields st.2 field) else st) st

/-- The body of `Logger.log` up to and including `evt.Int64("nanoseconds", ...)`:
the event on which `Msg` is then called. -/
def Logger.event (log : Logger) (evt : Event) (fields : List Goyagi.Data)
    (env : Env) (w : World) : Event :=
  let hasData := decide ((w.read log.data).len ≠ 0)
  let data := Dict.Fields Dict.new (w.read log.data)
  let st := logFields fields (hasData, data)
  let hasData := st.1
  let data := st.2
  let evt := evt.Fields (w.read log.root)
  let evt := if log.id ≠ "" then evt.Str "id" log.id else evt
  let evt := if hasData then evt.Dict "data" data else evt
  let evt :=
    match log.err with
    | some err =>
      let stack := errorStack err env
      let f := errorFields err stack
      evt.Dict "error" (Dict.Fields Dict.new f)
    | none => evt
  evt.Int64 "nanoseconds" env.nanos

/-- `Logger.log`: the event is completed and written. -/
def Logger.log (log : Logger) (evt : Event) (message : String) (fields : List Goyagi.Data)
    (env : Env) (w : World) : World :=
  (log.event evt fields env w).Msg message env.stamp w

/-- `Logger.Info`. -/
def Logger.Info (log : Logger) (message : String) (fields : List Goyagi.Data)
    (env : Env) (w : World) : World :=
  log.log (log.zl.newEvent Level.info) message fields env w

/-- `Logger.Error`. -/
def Logger.Error (log : Logger) (message : String) (fields : List Goyagi.Data)
    (env : Env) (w : World) : World :=
  log.log (log.zl.newEvent Level.error) message fields env w

/-- `Logger.Warn`. -/
def Logger.Warn (log : Logger) (message : String) (fields : List Goyagi.Data)
    (env : Env) (w : World) : World :=
  log.log (log.zl.newEvent Level.warn) message fields env w

/-- `Logger.Debug`. -/
def Logger.Debug (log : Logger) (message : String) (fields : List Goyagi.Data)
    (env : Env) (w : World) : World :=
  log.log (log.zl.newEvent Level.debug) message fields env w

/-- `Logger.Fatal`. -/
def Logger.Fatal (log : Logger) (message : String) (fields : List Goyagi.Data)
    (env : Env) (w : World) : World :=
  log.log (log.zl.newEvent Level.fatal) message fields env w

/-! ## echo.go -/

/-- Modelled from the spec: a request identifier of the UUID library (absent
from the sources): 128 bits, as a list of bytes. -/
structure UUID where
  bytes : List Nat
  deriving DecidableEq, Repr

/-- A hexadecimal digit. -/
def hexDigit (n : Nat) : Char := "0123456789abcdef".data.getD (n % 16) '0'

/-- Two hexadecimal digits for a byte. -/
def hexByte (b : Nat) : List Char := [hexDigit (b / 16), hexDigit b]

/-- The bytes `i`, ..., `j - 1` of an identifier in hexadecimal. -/
def UUID.hex (u : UUID) (i j : Nat) : List Char :=
  (((u.bytes.drop i).take (j - i)).map hexByte).flatten

/-- Modelled from the spec: `id.String()` of the UUID library (absent from the
sources): the string rendering `xxxxxxxx-xxxx-xxxx-xxxx-xxxxxxxxxxxx`. -/
def UUID.String (u : UUID) : String :=
  String.mk (u.hex 0 4 ++ '-' :: u.hex 4 6 ++ '-' :: u.hex 6 8 ++ '-' :: u.hex 8 10 ++
    '-' :: u.hex 10 16)

/-- Go `http.Header`: canonical header names with their values. -/
abbrev Header := List (String × List String)

/-- Go `textproto.CanonicalMIMEHeaderKey` on a name made of letters, digits and
hyphens: the first letter and every letter after a hyphen in upper case, the
others in lower case. -/
def canonicalChars : Bool → List Char → List Char
  | _, [] => []
  | upper, c :: cs =>
    (if upper then c.toUpper else c.toLower) :: canonicalChars (c == '-') cs

/-- Go `Header.Get`: the first value stored under the canonical form of `key`,
or the empty string. -/
def Header.Get (h : Header) (key : String) : String :=
  match h.find? (fun e => e.1 == String.mk (canonicalChars true key.data)) with
  | some (_, v :: _) => v
  | _ => ""

/-- An HTTP request, as far as the middleware reads it: `Method`, `URL.Path`,
`Header`, `RemoteAddr`. -/
structure Request where
  method : String
  urlPath : String
  header : Header
  remoteAddr : String

/-- `Request.Referer`. -/
def Request.Referer (r : Request) : String := r.header.Get "Referer"

/-- `Request.UserAgent`. -/
def Request.UserAgent (r : Request) : String := r.header.Get "User-Agent"

/-- A value stored in an `echo.Context` with `Set`. -/
inductive Any where
  | logger (l : Logger)
  | other (v : Value)
  deriving DecidableEq, Repr

/-- The `echo.Context` of a request, as far as the middleware uses it: the
request, the route pattern `Path()`, the status of the response
(`Response().Status`), and the values stored with `Set`. -/
structure Context where
  request : Request
  path : String
  status : Int
  store : List (String × Any)

/-- `c.Set(key, val)`. -/
def Context.Set (c : Context) (key : String) (val : Any) : Context :=
  { c with store := c.store.filter (fun e => e.1 != key) ++ [(key, val)] }

/-- `c.Get(key)`. -/
def Context.Get (c : Context) (key : String) : Option Any :=
  (c.store.find? (fun e => e.1 == key)).map Prod.snd

/-- The state a request runs in: the world of the logger, the context of the
request, and the errors handed to `c.Error` so far (oldest first), which is the
framework's error path. -/
structure St where
  world : World
  c : Context
  errorPath : List GoError

/-- An `echo.HandlerFunc`: it may change the state and returns an error or nil. -/
abbrev HandlerFunc := St → St × Option GoError

/-- The `HTTPErrorHandler` configured in the framework: what it does to the
world and the context when it is handed an error. -/
abbrev HTTPErrorHandler := GoError → World × Context → World × Context

/-- `c.Error(err)`: the error is handed to the framework's error handler. -/
def St.Error (s : St) (framework : HTTPErrorHandler) (err : GoError) : St :=
  { world := (framework err (s.world, s.c)).1, c := (framework err (s.world, s.c)).2,
    errorPath := s.errorPath ++ [err] }

/-- A handler or error handler reaches the heap of maps only through the
exported methods of the package, which write to fresh maps only: the maps that
exist stay as they are. -/
def HandlerFunc.preserves (next : HandlerFunc) : Prop :=
  ∀ s, s.world.maps.length ≤ (next s).1.world.maps.length ∧
    ∀ r, r < s.world.maps.length → (next s).1.world.read r = s.world.read r

/-- The same for the framework's error handler. -/
def HTTPErrorHandler.preserves (framework : HTTPErrorHandler) : Prop :=
  ∀ err w c, w.maps.length ≤ (framework err (w, c)).1.maps.length ∧
    ∀ r, r < w.maps.length → (framework err (w, c)).1.read r = w.read r

/-- `MiddlewareConfig`. -/
structure MiddlewareConfig where
  IsIgnorableError : GoError → Bool

/-- `defaultMiddlewareConfig`. -/
def defaultMiddlewareConfig : MiddlewareConfig :=
  { IsIgnorableError := fun _ => false }

/-- `echoKey`. -/
def echoKey : String := "logger"

/-- What one run of the middleware reads from its surroundings: the clock at
entry and after the handler (nanoseconds), the result of `uuid.NewV4()`, the
frames `errors.WithStack` records, and the readings of the one `log` call. -/
structure MwEnv where
  t1 : Int
  uuid : Except GoError UUID
  callers : List String
  t2 : Int
  log : Env

/-- `errors.WithStack(err)` for a non-nil `err`: the same text, with the stack
of the caller. -/
def WithStack (err : GoError) (callers : List String) : GoError :=
  ⟨err.msg, some callers⟩

/-- Go `unicode.IsSpace`. -/
def isSpace (c : Char) : Bool :=
  c.toNat ∈ [9, 10, 11, 12, 13, 32, 0x85, 0xA0, 0x1680, 0x2028, 0x2029, 0x202f, 0x205f,
    0x3000] || (0x2000 ≤ c.toNat && c.toNat ≤ 0x200a)

/-- Go `strings.TrimSpace`: leading and trailing white space removed. -/
def TrimSpace (s : List Char) : List Char :=
  ((s.dropWhile isSpace).reverse.dropWhile isSpace).reverse

/-- Go `strings.Split(s, sep)` for a separator of one character. -/
def Split (sep : Char) : List Char → List (List Char)
  | [] => [[]]
  | c :: cs =>
    if c = sep then [] :: Split sep cs
    else
      match Split sep cs with
      | [] => [[c]]
      | h :: t => (c :: h) :: t

/-- The client address (lines 49 to 57 of `echo.go`): the last entry of
`X-Forwarded-For`, trimmed, when the header is not empty, otherwise
`RemoteAddr`. The result is `none` when the index `len(split)-1` is out of
range, where Go panics. -/
def clientIP (req : Request) : Option String :=
  let xff := req.header.Get "x-forwarded-for"
  if xff ≠ "" then
    let split := Split ',' xff.data
    match split[split.length - 1]? with
    | some last => some (String.mk (TrimSpace last))
    | none => none
  else
    some req.remoteAddr

/-- The map literal of line 59: the root fields of a request. -/
def requestRoot (c : Context) (ipAddress : String) : Goyagi.Data :=
  Data.ofList [
    ("method", .str c.request.method),
    ("route", .str c.path),
    ("path", .str c.request.urlPath),
    ("ip_address", .str ipAddress),
    ("trace_id", .str (c.request.header.Get "x-amzn-trace-id")),
    ("referer", .str c.request.Referer),
    ("user_agent", .str c.request.UserAgent)]

/-- The map literal of line 81: the status of the response and the elapsed
time in milliseconds. -/
def responseRoot (c : Context) (t1 t2 : Int) : Goyagi.Data :=
  Data.ofList [("status_code", .int c.status), ("response_time", .millis (t2 - t1))]

/-- The closure `MiddlewareWithConfig` returns: it holds the options and the
logger `l` built once. -/
structure Mw where
  opts : MiddlewareConfig
  l : Logger

/-- `MiddlewareWithConfig`: `l := New()`, then the closure. -/
def MiddlewareWithConfig (os : OS) (opts : MiddlewareConfig) (w : World) : Mw × World :=
  let (l, w) := New os w
  (⟨opts, l⟩, w)

/-- `Middleware`: the default configuration. -/
def Middleware (os : OS) (w : World) : Mw × World :=
  MiddlewareWithConfig os defaultMiddlewareConfig w

/-- Lines 59 to 68: the logger of the request is derived from `l` and stored in
the context. -/
def Mw.attach (m : Mw) (id : UUID) (ipAddress : String) (s : St) : Logger × St :=
  let (log, w) := (m.l.ID id.String).Root (requestRoot s.c ipAddress) s.world
  (log, { s with world := w, c := s.c.Set echoKey (.logger log) })

/-- Lines 79 to 86: the event `handled request`, then `return nil`. -/
def Mw.finish (log : Logger) (env : MwEnv) (s : St) : St × Option GoError :=
  let (log2, w) := log.Root (responseRoot s.c env.t1 env.t2) s.world
  ({ s with world := log2.Info "handled request" [] env.log w }, none)

/-- The function the middleware runs for one request (the inner closure of
`MiddlewareWithConfig`), around the handler `next`. The result is `none` when
the run panics. -/
def Mw.run (m : Mw) (framework : HTTPErrorHandler) (next : HandlerFunc) (env : MwEnv)
    (s : St) : Option (St × Option GoError) :=
  match env.uuid with
  | .error err => some (s, some (WithStack err env.callers))
  | .ok id =>
    match clientIP s.c.request with
    | none => none
    | some ipAddress =>
      let (log, s) := m.attach id ipAddress s
      let (s, r) := next s
      match r with
      | some err =>
        if m.opts.IsIgnorableError err then
          some ({ s with world := (log.Err (some err)).Warn "ignored error" [] env.log s.world },
            some err)
        else
          some (Mw.finish log env (s.Error framework err))
      | none => some (Mw.finish log env s)

/-- The state in which lines 79 to 86 run: the state in which the handler
returned, after `c.Error(err)` when the handler returned an error. -/
def Mw.settled (framework : HTTPErrorHandler) (s : St) (r : Option GoError) : St :=
  match r with
  | some err => s.Error framework err
  | none => s

/-- `FromEchoContext`: the logger stored in the context, or a new one. -/
def FromEchoContext (os : OS) (s : St) : Logger × World :=
  match s.c.Get echoKey with
  | some (.logger log) => (log, s.world)
  | _ => New os s.world

/-- A request as it arrives at the middleware: its context, the handler it is
routed to, and what the run reads from its surroundings. -/
structure Arrival where
  c : Context
  next : HandlerFunc
  env : MwEnv

/-- The world after the middleware ran for a request that arrived in world
`w`. -/
def Mw.serve (m : Mw) (framework : HTTPErrorHandler) (w : World) (a : Arrival) : World :=
  match m.run framework a.next a.env { world := w, c := a.c, errorPath := [] } with
  | some (s, _) => s.world
  | none => w

/-- The world after the middleware ran for a sequence of requests, one after
the other. -/
def Mw.serveAll (m : Mw) (framework : HTTPErrorHandler) (as : List Arrival) (w : World) :
    World :=
  as.foldl (m.serve framework) w

/-! ## context.go -/

/-- A key of a `context.Context`: the value `key{}` of the private type `key`,
or a key of some other type. -/
inductive CtxKey where
  | key
  | other (name : String)
  deriving DecidableEq, Repr

/-- Go `context.Context`, as far as `Value` reads it: the pairs stored with
`context.WithValue`, the latest first. -/
abbrev GoContext := List (CtxKey × Any)

/-- Go `context.WithValue`. -/
def GoContext.WithValue (ctx : GoContext) (k : CtxKey) (v : Any) : GoContext :=
  (k, v) :: ctx

/-- Go `ctx.Value(k)`: the latest value stored under `k`, or nil. -/
def GoContext.Value (ctx : GoContext) (k : CtxKey) : Option Any :=
  (ctx.find? (fun e => e.1 == k)).map Prod.snd

/-- `Logger.WithContext`. -/
def Logger.WithContext (log : Logger) (ctx : GoContext) : GoContext :=
  ctx.WithValue CtxKey.key (Any.logger log)

/-- `FromContext`: the logger attached to the context, or a new one. -/
def FromContext (os : OS) (ctx : GoContext) (w : World) : Logger × World :=
  match ctx.Value CtxKey.key with
  | some (.logger log) => (log, w)
  | _ => New os w

/-! ## What is observed of a run -/

/-- The level methods `Debug`, `Info`, `Warn`, `Error`, `Fatal`, by level. -/
def Logger.emit (log : Logger) (level : Level) (message : String)
    (fields : List Goyagi.Data) (env : Env) (w : World) : World :=
  match level with
  | .debug => log.Debug message fields env w
  | .info => log.Info message fields env w
  | .warn => log.Warn message fields env w
  | .error => log.Error message fields env w
  | .fatal => log.Fatal message fields env w

/-- The event a level method renders: the entry it sends to the writer. -/
def rendered (log : Logger) (level : Level) (message : String)
    (fields : List Goyagi.Data) (env : Env) (w : World) : Entry :=
  (log.event (log.zl.newEvent level) fields env w).entry message env.stamp

/-- The nested objects an entry holds under `key`. -/
def Entry.objects (e : Entry) (key : String) : List Dict :=
  e.fields.filterMap (fun f =>
    match f with
    | .dict k d => if k = key then some d else none
    | .val _ _ => none)

/-- The scalars an entry holds at top level under `key`. -/
def Entry.scalars (e : Entry) (key : String) : List Scalar :=
  e.fields.filterMap (fun f =>
    match f with
    | .val k v => if k = key then some v else none
    | .dict _ _ => none)

/-- Whether an entry has a field named `key`, at top level. -/
def Entry.has (e : Entry) (key : String) : Prop := key ∈ e.fields.map Field.key

instance Entry.decidableHas (e : Entry) (key : String) : Decidable (e.has key) :=
  inferInstanceAs (Decidable (key ∈ e.fields.map Field.key))

/-- What a reader that keeps the last occurrence of a repeated key finds under
`k` in a nested object. -/
def Dict.get (d : Dict) (k : String) : Option Scalar :=
  (d.reverse.find? (fun e => e.1 == k)).map Prod.snd

/-- The fields of a map as `Event.Fields` writes them at top level. -/
def rootFields (m : Goyagi.Data) : List Field :=
  (appendFields m).map (fun e => Field.val e.1 e.2)

/-- The value of `hasData` after the loop of `log`. -/
def hasData (base : Goyagi.Data) (fields : List Goyagi.Data) : Bool :=
  (logFields fields (decide (base.len ≠ 0), Dict.Fields Dict.new base)).1

/-- The value of `data` after the loop of `log`. -/
def dataDict (base : Goyagi.Data) (fields : List Goyagi.Data) : Dict :=
  (logFields fields (decide (base.len ≠ 0), Dict.Fields Dict.new base)).2

/-- The references of a logger point into the heap. Every logger built by
`NewWithWriter` and the deriving operations has this property. -/
def Logger.valid (log : Logger) (w : World) : Prop :=
  log.data < w.maps.length ∧ log.root < w.maps.length

instance Logger.decidableValid (log : Logger) (w : World) : Decidable (log.valid w) :=
  inferInstanceAs (Decidable (log.data < w.maps.length ∧ log.root < w.maps.length))

/-- One call of an exported method on some logger. -/
inductive Call where
  | ID (log : Logger) (id : String)
  | Err (log : Logger) (err : Option GoError)
  | Data (log : Logger) (data : Goyagi.Data)
  | Root (log : Logger) (root : Goyagi.Data)
  | Info (log : Logger) (message : String) (fields : List Goyagi.Data) (env : Env)
  | Warn (log : Logger) (message : String) (fields : List Goyagi.Data) (env : Env)
  | Error (log : Logger) (message : String) (fields : List Goyagi.Data) (env : Env)
  | Debug (log : Logger) (message : String) (fields : List Goyagi.Data) (env : Env)

/-- The world after a call (the value a deriving call returns is a struct and
not part of the world). -/
def Call.exec : Call → World → World
  | .ID _ _, w => w
  | .Err _ _, w => w
  | .Data log data, w => (log.Data data w).2
  | .Root log root, w => (log.Root root w).2
  | .Info log message fields env, w => log.Info message fields env w
  | .Warn log message fields env, w => log.Warn message fields env w
  | .Error log message fields env, w => log.Error message fields env w
  | .Debug log message fields env, w => log.Debug message fields env w

/-- The world after a sequence of calls. -/
def execAll (cs : List Call) (w : World) : World :=
  cs.foldl (fun w c => c.exec w) w

/-- Two maps are the same map: every key has the same value, or no value, in
both. -/
def Data.same (a b : Data) : Prop := ∀ k, a.get k = b.get k

/-! ## Sample inputs -/

/-- The map `{a:1, b:2}`. -/
def abData : Data := Data.ofList [("a", .int 1), ("b", .int 2)]

/-- The map `{b:3, c:4}`. -/
def bcData : Data := Data.ofList [("b", .int 3), ("c", .int 4)]

/-- The map `{status_code: 200}`. -/
def statusData : Data := Data.ofList [("status_code", .int 200)]

/-- A heap with the map `{a:1, b:2}` at reference 0 and an empty map at
reference 1. -/
def abWorld : World := ⟨[abData, Data.empty], [], false⟩

/-- A heap with an empty map at reference 0 and the map `{data: "x"}` at
reference 1: for `abLogger`, no data and a root entry named `data`. -/
def dataRootWorld : World := ⟨[Data.empty, Data.ofList [("data", .str "x")]], [], false⟩

/-- A heap with two empty maps. -/
def emptyWorld : World := ⟨[Data.empty, Data.empty], [], false⟩

/-- The operating system of the samples: host `web-1`, no release. -/
def sampleOS : OS := ⟨"web-1", ""⟩

/-- A logger on standard output whose `data` is the map at reference 0 and whose
`root` is the map at reference 1. -/
def abLogger : Logger := ⟨newZL sampleOS Writer.stdout, "", none, 0, 1⟩

/-- Some readings of the surroundings. -/
def sampleEnv : Env := ⟨1700000000000000000, 1700000000, "goroutine 1 [running]:".data⟩

/-- An error for the samples, as a handler would return for a missing page. -/
def ErrNotFound : GoError := ⟨"not found", none⟩

/-- The options of the samples: only `ErrNotFound` is ignorable. -/
def ignoreNotFound : MiddlewareConfig := { IsIgnorableError := fun err => err == ErrNotFound }

/-- The request of the samples: `GET /widgets/42` through two proxies. -/
def sampleRequest : Request :=
  { method := "GET", urlPath := "/widgets/42",
    header := [("X-Forwarded-For", ["10.0.0.1, 203.0.113.5"]), ("User-Agent", ["curl/8"])],
    remoteAddr := "192.0.2.7:5123" }

/-- The middleware of the samples, built on an empty world. -/
def sampleMw : Mw := (MiddlewareWithConfig sampleOS ignoreNotFound ⟨[], [], false⟩).1

/-- The middleware of the samples with the default configuration. -/
def defaultMw : Mw := (Middleware sampleOS ⟨[], [], false⟩).1

/-- The state in which the sample request arrives: no route matched. -/
def sampleSt : St :=
  { world := (MiddlewareWithConfig sampleOS ignoreNotFound ⟨[], [], false⟩).2,
    c := { request := sampleRequest, path := "", status := 200, store := [] },
    errorPath := [] }

/-- The identifier of the samples. -/
def sampleUUID : UUID := ⟨[1, 2, 3, 4, 5, 6, 7, 8, 9, 10, 11, 12, 13, 14, 15, 16]⟩

/-- The readings of the samples: the handler takes 2.5 milliseconds. -/
def sampleMwEnv : MwEnv :=
  { t1 := 1700000000000000000, uuid := .ok sampleUUID, callers := [],
    t2 := 1700000000002500000, log := sampleEnv }

/-- A handler that fails with `ErrNotFound`. -/
def notFoundHandler : HandlerFunc := fun s => (s, some ErrNotFound)

/-- An error handler of the framework that answers 404. -/
def notFoundResponder : HTTPErrorHandler := fun _ wc => (wc.1, { wc.2 with status := 404 })

/-- A heap with an empty map at reference 0 and the map `{id: "x"}` at
reference 1: for `abLogger`, a root entry named `id`. -/
def idRootWorld : World := ⟨[Data.empty, Data.ofList [("id", .str "x")]], [], false⟩

/-- A request whose `X-Forwarded-For` holds only commas and white space. -/
def blankForwardedRequest : Request :=
  { method := "GET", urlPath := "/", header := [("X-Forwarded-For", [" , ,  "])],
    remoteAddr := "192.0.2.7:5123" }

/-- The sample request as it arrives, routed to the handler that fails. -/
def sampleArrival : Arrival :=
  { c := sampleSt.c, next := notFoundHandler, env := sampleMwEnv }

/-- A request from another client, as it arrives. -/
def otherArrival : Arrival :=
  { c := { request := { method := "POST", urlPath := "/orders", header := [],
                        remoteAddr := "198.51.100.9:4000" },
           path := "/orders", status := 200, store := [] },
    next := notFoundHandler, env := sampleMwEnv }

/-- The readings of a run in which the identifier cannot be generated. -/
def failedUUIDEnv : MwEnv :=
  { t1 := 1700000000000000000, uuid := .error ⟨"entropy source failed", none⟩,
    callers := ["logger.MiddlewareWithConfig.func1.1\n\t/app/echo.go:46"],
    t2 := 1700000000002500000, log := sampleEnv }

/-- The state in which the sample request arrives after the middleware of the
samples served two other requests. -/
def laterSt : St :=
  { world := sampleMw.serveAll notFoundResponder [otherArrival, sampleArrival] sampleSt.world,
    c := sampleSt.c, errorPath := [] }

/-! # Lemmas -/

/-! ## Maps: lookup and merge -/

theorem Data.find_filter_ne (l : List (String × Value)) (k k' : String) (h : k' ≠ k) :
    (l.filter (fun e => e.1 != k)).find? (fun e => e.1 == k') =
      l.find? (fun e => e.1 == k') := by
  induction l with
  | nil => rfl
  | cons e es ih =>
    by_cases he : e.1 = k
    · have hb1 : (e.1 != k) = false := by simp [he]
      have hb2 : (e.1 == k') = false := by
        simp only [beq_eq_false_iff_ne, ne_eq]
        exact fun h' => h (h'.symm.trans he)
      rw [List.filter_cons, List.find?_cons, hb1, hb2]
      simpa using ih
    · have hb1 : (e.1 != k) = true := by simp [he]
      rw [List.filter_cons, hb1]
      simp only [if_true, List.find?_cons]
      rw [ih]

theorem Data.get_set (m : Data) (k : String) (v : Value) (k' : String) :
    (m.set k v).get k' = if k' = k then some v else m.get k' := by
  unfold Data.get Data.set
  simp only [List.find?_append]
  by_cases h : k' = k
  · subst h
    have hnone : List.find? (fun e => e.1 == k')
        (List.filter (fun e => e.1 != k') m.entries) = none := by
      rw [List.find?_eq_none]
      intro x hx
      rw [List.mem_filter] at hx
      simpa using hx.2
    simp [hnone]
  · have hk : (k == k') = false := by simpa using fun h' => h h'.symm
    simp only [h, if_false, List.find?_cons, hk, List.find?_nil, Option.or_none]
    rw [Data.find_filter_ne _ _ _ h]

theorem Data.mem_keys_iff (m : Data) (k : String) :
    k ∈ m.keys ↔ ∃ v, m.get k = some v := by
  unfold Data.keys Data.get
  constructor
  · intro h
    rw [List.mem_map] at h
    obtain ⟨e, he, rfl⟩ := h
    cases hf : List.find? (fun x => x.1 == e.1) m.entries with
    | none =>
      rw [List.find?_eq_none] at hf
      exact absurd (hf e he) (by simp)
    | some x => exact ⟨x.2, rfl⟩
  · rintro ⟨v, hv⟩
    cases hf : List.find? (fun x => x.1 == k) m.entries with
    | none => simp [hf] at hv
    | some x =>
      have h1 := List.find?_some hf
      have h2 := List.mem_of_find?_eq_some hf
      rw [List.mem_map]
      exact ⟨x, h2, by simpa using h1⟩

theorem Data.not_mem_keys_iff (m : Data) (k : String) :
    k ∉ m.keys ↔ m.get k = none := by
  rw [Data.mem_keys_iff]
  cases m.get k <;> simp

theorem Data.foldl_set_get (l : List (String × Value)) (hl : (l.map Prod.fst).Nodup)
    (a : Data) (k : String) :
    (l.foldl (fun m e => m.set e.1 e.2) a).get k =
      match (l.find? (fun e => e.1 == k)).map Prod.snd with
      | some v => some v
      | none => a.get k := by
  induction l generalizing a with
  | nil => rfl
  | cons e es ih =>
    rw [List.map_cons, List.nodup_cons] at hl
    rw [List.foldl_cons, ih hl.2]
    by_cases he : e.1 = k
    · have hnone : List.find? (fun x => x.1 == k) es = none := by
        rw [List.find?_eq_none]
        intro x hx hxk
        apply hl.1
        rw [List.mem_map]
        exact ⟨x, hx, by rw [he]; simpa using hxk⟩
      simp [List.find?_cons, he, hnone, Data.get_set]
    · have hk : ¬ k = e.1 := fun h => he h.symm
      simp [List.find?_cons, he, Data.get_set, hk]

/-- Lookup in a merge: the right map wins. -/
theorem Data.get_merge (a b : Data) (k : String) :
    (a.merge b).get k = match b.get k with
      | some v => some v
      | none => a.get k :=
  Data.foldl_set_get b.entries b.nodup a k

theorem Data.mem_keys_merge (a b : Data) (k : String) :
    k ∈ (a.merge b).keys ↔ k ∈ a.keys ∨ k ∈ b.keys := by
  simp only [Data.mem_keys_iff, Data.get_merge]
  cases b.get k <;> simp

theorem Data.get_empty (k : String) : Data.empty.get k = none := rfl

theorem Data.get_merge_empty (a : Data) (k : String) :
    (Data.empty.merge a).get k = a.get k := by
  rw [Data.get_merge]
  cases a.get k <;> rfl

theorem Data.len_eq_zero_iff (m : Data) : m.len = 0 ↔ m.keys = [] := by
  unfold Data.len Data.keys
  cases m.entries <;> simp

/-! ## The heap: reads after allocation and writes -/

theorem World.read_alloc (w : World) (r : Ref) :
    w.alloc.2.read r = w.read r := by
  unfold World.alloc World.read
  simp only [List.getD_eq_getElem?_getD]
  by_cases h : r < w.maps.length
  · rw [List.getElem?_append_left h]
  · rw [not_lt] at h
    rw [List.getElem?_eq_none h]
    rcases Nat.eq_or_lt_of_le h with h' | h'
    · subst h'
      simp
    · rw [List.getElem?_eq_none (by simp; omega)]

theorem World.alloc_fst (w : World) : w.alloc.1 = w.maps.length := rfl

theorem World.alloc_length (w : World) : w.alloc.2.maps.length = w.maps.length + 1 := by
  simp [World.alloc]

theorem World.alloc_out (w : World) : w.alloc.2.out = w.out := rfl

theorem World.alloc_exited (w : World) : w.alloc.2.exited = w.exited := rfl

theorem World.write_length (w : World) (r : Ref) (k : String) (v : Value) :
    (w.write r k v).maps.length = w.maps.length := by
  simp [World.write]

theorem World.read_write_ne (w : World) (r r' : Ref) (k : String) (v : Value) (h : r' ≠ r) :
    (w.write r k v).read r' = w.read r' := by
  unfold World.write World.read
  simp only [List.getD_eq_getElem?_getD]
  rw [List.getElem?_set_ne (fun h' => h h'.symm)]

theorem World.read_write_eq (w : World) (r : Ref) (k : String) (v : Value)
    (h : r < w.maps.length) :
    (w.write r k v).read r = (w.read r).set k v := by
  unfold World.write
  show List.getD (w.maps.set r _) r Data.empty = _
  rw [List.getD_eq_getElem?_getD, List.getElem?_set_self h]
  rfl

theorem World.copyInto_length (w : World) (dst : Ref) (src : Data) :
    (w.copyInto dst src).maps.length = w.maps.length := by
  unfold World.copyInto
  induction src.entries generalizing w with
  | nil => rfl
  | cons e es ih => rw [List.foldl_cons, ih, World.write_length]

theorem World.copyInto_out (w : World) (dst : Ref) (src : Data) :
    (w.copyInto dst src).out = w.out ∧ (w.copyInto dst src).exited = w.exited := by
  unfold World.copyInto
  induction src.entries generalizing w with
  | nil => exact ⟨rfl, rfl⟩
  | cons e es ih =>
    rw [List.foldl_cons]
    exact ih (w.write dst e.1 e.2)

theorem World.read_copyInto_ne (w : World) (dst r : Ref) (src : Data) (h : r ≠ dst) :
    (w.copyInto dst src).read r = w.read r := by
  unfold World.copyInto
  induction src.entries generalizing w with
  | nil => rfl
  | cons e es ih => rw [List.foldl_cons, ih, World.read_write_ne _ _ _ _ _ h]

theorem World.read_copyInto_eq (w : World) (dst : Ref) (src : Data)
    (h : dst < w.maps.length) :
    (w.copyInto dst src).read dst = (w.read dst).merge src := by
  unfold World.copyInto Data.merge
  induction src.entries generalizing w with
  | nil => rfl
  | cons e es ih =>
    rw [List.foldl_cons, List.foldl_cons, ih _ (by rw [World.write_length]; exact h),
      World.read_write_eq _ _ _ _ h]

/-! ## The deriving operations on the heap -/

theorem Data_fst (L : Logger) (F : Data) (w : World) :
    (L.Data F w).1 = { L with data := w.maps.length } := rfl

theorem Root_fst (L : Logger) (F : Data) (w : World) :
    (L.Root F w).1 = { L with root := w.maps.length } := rfl

theorem World.read_derive (w : World) (src : Ref) (F : Data) :
    ((w.alloc.2.copyInto w.alloc.1 (w.alloc.2.read src)).copyInto w.alloc.1 F).read
      w.maps.length = ((Data.empty.merge (w.read src)).merge F) := by
  have hlt : w.alloc.1 < w.alloc.2.maps.length := by
    rw [World.alloc_fst, World.alloc_length]
    exact Nat.lt_succ_self _
  have hnew : w.alloc.2.read w.alloc.1 = Data.empty := by
    rw [World.read_alloc, World.alloc_fst]
    unfold World.read
    rw [List.getD_eq_getElem?_getD, List.getElem?_eq_none (le_refl _)]
    rfl
  rw [← World.alloc_fst, World.read_copyInto_eq _ _ _ (by rw [World.copyInto_length]; exact hlt),
    World.read_copyInto_eq _ _ _ hlt, hnew, World.read_alloc]

theorem World.frame_derive (w : World) (src : Ref) (F : Data) (r : Ref)
    (h : r < w.maps.length) :
    ((w.alloc.2.copyInto w.alloc.1 (w.alloc.2.read src)).copyInto w.alloc.1 F).read r =
      w.read r := by
  have hne : r ≠ w.alloc.1 := by
    rw [World.alloc_fst]
    exact Nat.ne_of_lt h
  rw [World.read_copyInto_ne _ _ _ _ hne, World.read_copyInto_ne _ _ _ _ hne, World.read_alloc]

theorem Data_read (L : Logger) (F : Data) (w : World) :
    (L.Data F w).2.read (L.Data F w).1.data = (Data.empty.merge (w.read L.data)).merge F :=
  World.read_derive w L.data F

theorem Root_read (L : Logger) (F : Data) (w : World) :
    (L.Root F w).2.read (L.Root F w).1.root = (Data.empty.merge (w.read L.root)).merge F :=
  World.read_derive w L.root F

theorem Data_frame (L : Logger) (F : Data) (w : World) (r : Ref)
    (h : r < w.maps.length) : (L.Data F w).2.read r = w.read r :=
  World.frame_derive w L.data F r h

theorem Root_frame (L : Logger) (F : Data) (w : World) (r : Ref)
    (h : r < w.maps.length) : (L.Root F w).2.read r = w.read r :=
  World.frame_derive w L.root F r h

theorem Data_length (L : Logger) (F : Data) (w : World) :
    (L.Data F w).2.maps.length = w.maps.length + 1 := by
  show ((w.alloc.2.copyInto w.alloc.1 (w.alloc.2.read L.data)).copyInto
    w.alloc.1 F).maps.length = _
  rw [World.copyInto_length, World.copyInto_length, World.alloc_length]

theorem Root_length (L : Logger) (F : Data) (w : World) :
    (L.Root F w).2.maps.length = w.maps.length + 1 := by
  show ((w.alloc.2.copyInto w.alloc.1 (w.alloc.2.read L.root)).copyInto
    w.alloc.1 F).maps.length = _
  rw [World.copyInto_length, World.copyInto_length, World.alloc_length]

theorem Data_out (L : Logger) (F : Data) (w : World) :
    (L.Data F w).2.out = w.out := by
  show ((w.alloc.2.copyInto w.alloc.1 (w.alloc.2.read L.data)).copyInto w.alloc.1 F).out = _
  rw [(World.copyInto_out _ _ _).1, (World.copyInto_out _ _ _).1, World.alloc_out]

theorem Root_out (L : Logger) (F : Data) (w : World) :
    (L.Root F w).2.out = w.out := by
  show ((w.alloc.2.copyInto w.alloc.1 (w.alloc.2.read L.root)).copyInto w.alloc.1 F).out = _
  rw [(World.copyInto_out _ _ _).1, (World.copyInto_out _ _ _).1, World.alloc_out]

/-- What a map obtained by copying `a` into a fresh map and then storing the
entries of `b` contains. -/
theorem Data.merged_spec (a b : Data) :
    (∀ k, k ∈ ((Data.empty.merge a).merge b).keys ↔ k ∈ a.keys ∨ k ∈ b.keys) ∧
    (∀ k v, b.get k = some v → ((Data.empty.merge a).merge b).get k = some v) ∧
    (∀ k, k ∈ a.keys → k ∉ b.keys →
      ((Data.empty.merge a).merge b).get k = a.get k) := by
  refine ⟨?_, ?_, ?_⟩
  · intro k
    rw [Data.mem_keys_merge, Data.mem_keys_merge]
    simp [Data.keys, Data.empty]
  · intro k v h
    rw [Data.get_merge, h]
  · intro k _ hb
    rw [Data.not_mem_keys_iff] at hb
    rw [Data.get_merge, hb, Data.get_merge_empty]

/-! ## Emission and the heap -/

theorem log_maps (L : Logger) (evt : Event) (msg : String) (fs : List Data) (env : Env)
    (w : World) : (L.log evt msg fs env w).maps = w.maps := rfl

theorem emit_maps (L : Logger) (level : Level) (msg : String) (fs : List Data) (env : Env)
    (w : World) : (L.emit level msg fs env w).maps = w.maps := by
  cases level <;> rfl

/-- A level method appends exactly the rendered entry to the output. -/
theorem emit_out (L : Logger) (level : Level) (msg : String) (fs : List Data) (env : Env)
    (w : World) : (L.emit level msg fs env w).out = w.out ++ [rendered L level msg fs env w] := by
  cases level <;> rfl

theorem read_congr (w w' : World) (h : w'.maps = w.maps) (r : Ref) : w'.read r = w.read r := by
  unfold World.read
  rw [h]

/-- The rendered entry depends on the heap only through the two maps of the
logger. -/
theorem rendered_congr (L : Logger) (level : Level) (msg : String) (fs : List Data) (env : Env)
    (w w' : World) (hd : w'.read L.data = w.read L.data) (hr : w'.read L.root = w.read L.root) :
    rendered L level msg fs env w' = rendered L level msg fs env w := by
  unfold rendered Logger.event
  rw [hd, hr]

theorem Call.exec_frame (c : Call) (w : World) :
    w.maps.length ≤ (c.exec w).maps.length ∧
      ∀ r, r < w.maps.length → (c.exec w).read r = w.read r := by
  cases c with
  | ID _ _ => exact ⟨le_refl _, fun _ _ => rfl⟩
  | Err _ _ => exact ⟨le_refl _, fun _ _ => rfl⟩
  | Data log data =>
    exact ⟨by show _ ≤ (log.Data data w).2.maps.length; rw [Data_length]; exact Nat.le_succ _,
      fun r h => Data_frame log data w r h⟩
  | Root log root =>
    exact ⟨by show _ ≤ (log.Root root w).2.maps.length; rw [Root_length]; exact Nat.le_succ _,
      fun r h => Root_frame log root w r h⟩
  | Info _ _ _ _ => exact ⟨le_refl _, fun _ _ => rfl⟩
  | Warn _ _ _ _ => exact ⟨le_refl _, fun _ _ => rfl⟩
  | Error _ _ _ _ => exact ⟨le_refl _, fun _ _ => rfl⟩
  | Debug _ _ _ _ => exact ⟨le_refl _, fun _ _ => rfl⟩

theorem execAll_frame (cs : List Call) (w : World) :
    w.maps.length ≤ (execAll cs w).maps.length ∧
      ∀ r, r < w.maps.length → (execAll cs w).read r = w.read r := by
  unfold execAll
  induction cs generalizing w with
  | nil => exact ⟨le_refl _, fun _ _ => rfl⟩
  | cons c cs ih =>
    rw [List.foldl_cons]
    obtain ⟨h1, h2⟩ := Call.exec_frame c w
    obtain ⟨h3, h4⟩ := ih (c.exec w)
    exact ⟨le_trans h1 h3, fun r h => (h4 r (lt_of_lt_of_le h h1)).trans (h2 r h)⟩

theorem World.read_fresh (w : World) : w.read w.maps.length = Data.empty := by
  unfold World.read
  rw [List.getD_eq_getElem?_getD, List.getElem?_eq_none (le_refl _)]
  rfl

/-- A logger built by `NewWithWriter` is valid, with two empty maps. -/
theorem NewWithWriter_valid (os : OS) (wr : Writer) (w : World) :
    (NewWithWriter os wr w).1.valid (NewWithWriter os wr w).2 ∧
    (NewWithWriter os wr w).2.read (NewWithWriter os wr w).1.data = Data.empty ∧
    (NewWithWriter os wr w).2.read (NewWithWriter os wr w).1.root = Data.empty := by
  refine ⟨?_, ?_, ?_⟩
  · show w.maps.length < w.alloc.2.alloc.2.maps.length ∧
      w.alloc.2.maps.length < w.alloc.2.alloc.2.maps.length
    rw [World.alloc_length, World.alloc_length]
    omega
  · show w.alloc.2.alloc.2.read w.maps.length = Data.empty
    rw [World.read_alloc, World.read_alloc, World.read_fresh]
  · show w.alloc.2.alloc.2.read w.alloc.2.maps.length = Data.empty
    rw [World.read_alloc, World.read_fresh]

/-- The deriving operations keep a logger valid. -/
theorem derive_valid (L : Logger) (w : World) (h : L.valid w) (F : Data) (s : String)
    (e : Option GoError) :
    (L.ID s).valid w ∧ (L.Err e).valid w ∧ (L.Data F w).1.valid (L.Data F w).2 ∧
      (L.Root F w).1.valid (L.Root F w).2 := by
  refine ⟨h, h, ?_, ?_⟩
  · unfold Logger.valid
    rw [Data_length, Data_fst]
    exact ⟨Nat.lt_succ_self _, Nat.lt_succ_of_lt h.2⟩
  · unfold Logger.valid
    rw [Root_length, Root_fst]
    exact ⟨Nat.lt_succ_of_lt h.1, Nat.lt_succ_self _⟩

/-! ## The shape of a rendered entry -/

theorem logFields_snd (fs : List Data) (b : Bool) (d : Dict) :
    (logFields fs (b, d)).2 = fs.foldl (fun d F => d ++ appendFields F) d := by
  unfold logFields
  induction fs generalizing b d with
  | nil => rfl
  | cons F fs ih =>
    rw [List.foldl_cons, List.foldl_cons]
    by_cases h : F.len ≠ 0
    · rw [if_pos h, ih]
      rfl
    · rw [if_neg h, ih]
      have h0 : F.entries = [] := by
        unfold Data.len at h
        simpa using h
      have : appendFields F = [] := by
        unfold appendFields
        rw [h0]
        rfl
      rw [this, List.append_nil]

theorem logFields_fst (fs : List Data) (b : Bool) (d : Dict) :
    (logFields fs (b, d)).1 = true ↔ b = true ∨ ∃ F ∈ fs, F.len ≠ 0 := by
  unfold logFields
  induction fs generalizing b d with
  | nil => simp
  | cons F fs ih =>
    rw [List.foldl_cons]
    by_cases h : F.len ≠ 0
    · rw [if_pos h, ih]
      simp only [true_or, true_iff, List.mem_cons]
      exact Or.inr ⟨F, Or.inl rfl, h⟩
    · rw [if_neg h, ih]
      simp only [List.mem_cons, exists_eq_or_imp]
      tauto

/-- The flag `hasData`: the logger's map or some call-site field set is not
empty. -/
theorem hasData_iff (base : Data) (fs : List Data) :
    hasData base fs = true ↔ base.len ≠ 0 ∨ ∃ F ∈ fs, F.len ≠ 0 := by
  unfold hasData
  rw [logFields_fst]
  simp

/-- The dict `data`: the fields of the logger's map, then those of each
call-site field set, in call order. -/
theorem dataDict_eq (base : Data) (fs : List Data) :
    dataDict base fs = fs.foldl (fun d F => d ++ appendFields F) (appendFields base) := by
  unfold dataDict
  rw [logFields_snd]
  rfl

/-- The fields of a rendered entry, in the order written. -/
theorem rendered_fields (L : Logger) (level : Level) (msg : String) (fs : List Data)
    (env : Env) (w : World) :
    (rendered L level msg fs env w).fields =
      (Field.val "level" (.str level.String) ::
        L.zl.context.map (fun e => Field.val e.1 e.2)) ++
      rootFields (w.read L.root) ++
      (if L.id ≠ "" then [Field.val "id" (.str L.id)] else []) ++
      (if hasData (w.read L.data) fs then
        [Field.dict "data" (dataDict (w.read L.data) fs)] else []) ++
      (match L.err with
        | some e => [Field.dict "error" (appendFields (errorFields e (errorStack e env)))]
        | none => []) ++
      [Field.val "nanoseconds" (.int env.nanos)] ++
      [Field.val "timestamp" (.time env.stamp)] ++
      (if msg ≠ "" then [Field.val "message" (.str msg)] else []) := by
  simp only [rendered, Logger.event, Event.entry, hasData, dataDict, rootFields]
  generalize logFields fs (decide ((w.read L.data).len ≠ 0),
    Dict.Fields Dict.new (w.read L.data)) = st
  obtain ⟨b, d⟩ := st
  cases b <;> cases L.err <;> by_cases h1 : L.id = "" <;> by_cases h2 : msg = "" <;>
    simp [h1, h2, Event.Fields, Event.Str, Event.Dict, Event.Int64, ZL.newEvent,
      Dict.Fields, Dict.new]

theorem appendFields_errorFields (e : GoError) (stack : List Char) :
    appendFields (errorFields e stack) =
      [("message", .str e.msg), ("stack", .str (String.mk stack))] := by
  rfl

theorem filterMap_dict_vals (key : String) (l : List (String × Scalar)) :
    List.filterMap (fun f =>
      match f with
      | Field.dict k d => if k = key then some d else none
      | Field.val _ _ => none) (l.map (fun e => Field.val e.1 e.2)) = [] := by
  induction l with
  | nil => rfl
  | cons e es ih => simp [List.filterMap_cons]

/-- The nested objects of a rendered entry under `data`: the dict `data` when
`hasData` is set, and nothing else. -/
theorem rendered_objects_data (L : Logger) (level : Level) (msg : String) (fs : List Data)
    (env : Env) (w : World) :
    (rendered L level msg fs env w).objects "data" =
      if hasData (w.read L.data) fs then [dataDict (w.read L.data) fs] else [] := by
  unfold Entry.objects
  rw [rendered_fields]
  simp only [List.filterMap_append, List.filterMap_cons, rootFields, filterMap_dict_vals,
    List.filterMap_nil]
  cases hasData (w.read L.data) fs <;> cases L.err <;> by_cases h1 : L.id = "" <;>
    by_cases h2 : msg = "" <;> simp [h1, h2]

/-- The nested objects of a rendered entry under `error`: one object with the
error's text and the stack when an error is attached, none otherwise. -/
theorem rendered_objects_error (L : Logger) (level : Level) (msg : String) (fs : List Data)
    (env : Env) (w : World) :
    (rendered L level msg fs env w).objects "error" =
      match L.err with
      | some e => [[("message", .str e.msg), ("stack", .str (String.mk (errorStack e env)))]]
      | none => [] := by
  unfold Entry.objects
  rw [rendered_fields]
  simp only [List.filterMap_append, List.filterMap_cons, rootFields, filterMap_dict_vals,
    List.filterMap_nil, appendFields_errorFields]
  cases hasData (w.read L.data) fs <;> cases L.err <;> by_cases h1 : L.id = "" <;>
    by_cases h2 : msg = "" <;> simp [h1, h2]

/-! ## Nested objects: keys, last occurrence, number of occurrences -/

theorem find_key_eq_some_iff {β : Type} (l : List (String × β))
    (hl : (l.map Prod.fst).Nodup) (k : String) (v : β) :
    (l.find? (fun e => e.1 == k)).map Prod.snd = some v ↔ (k, v) ∈ l := by
  induction l with
  | nil => simp
  | cons e es ih =>
    rw [List.map_cons, List.nodup_cons] at hl
    by_cases he : e.1 = k
    · have hb : (e.1 == k) = true := by simpa using he
      rw [List.find?_cons, hb]
      simp only [Option.map_some', Option.some.injEq, List.mem_cons]
      constructor
      · intro h
        left
        rw [← h, ← he]
      · rintro (h | h)
        · rw [← h]
        · exfalso
          apply hl.1
          rw [List.mem_map]
          exact ⟨(k, v), h, he.symm⟩
    · have hb : (e.1 == k) = false := by simpa using he
      rw [List.find?_cons, hb]
      simp only [List.mem_cons]
      rw [ih hl.2]
      constructor
      · exact Or.inr
      · rintro (h | h)
        · exact absurd (by rw [← h]) he
        · exact h

theorem Data.get_eq_some_iff (m : Data) (k : String) (v : Value) :
    m.get k = some v ↔ (k, v) ∈ m.entries :=
  find_key_eq_some_iff m.entries m.nodup k v

theorem appendFields_perm (m : Data) :
    (appendFields m).Perm (m.entries.map (fun e => (e.1, appendValue e.2))) :=
  (List.perm_insertionSort _ _).map _

theorem appendFields_keys_perm (m : Data) : ((appendFields m).map Prod.fst).Perm m.keys := by
  have h := (appendFields_perm m).map Prod.fst
  rw [List.map_map] at h
  exact h

theorem appendFields_keys_nodup (m : Data) : ((appendFields m).map Prod.fst).Nodup :=
  (appendFields_keys_perm m).nodup_iff.mpr m.nodup

theorem mem_appendFields (m : Data) (k : String) (s : Scalar) :
    (k, s) ∈ appendFields m ↔ ∃ v, m.get k = some v ∧ s = appendValue v := by
  rw [(appendFields_perm m).mem_iff, List.mem_map]
  constructor
  · rintro ⟨e, he, heq⟩
    refine ⟨e.2, (Data.get_eq_some_iff m k e.2).mpr ?_, ?_⟩
    · have : e.1 = k := congrArg Prod.fst heq
      rw [← this]
      exact he
    · exact (congrArg Prod.snd heq).symm
  · rintro ⟨v, hv, rfl⟩
    exact ⟨(k, v), (Data.get_eq_some_iff m k v).mp hv, rfl⟩

theorem mem_keys_appendFields (m : Data) (k : String) :
    k ∈ (appendFields m).map Prod.fst ↔ k ∈ m.keys :=
  (appendFields_keys_perm m).mem_iff

/-- Reading one written map: the value stored under the key. -/
theorem Dict.get_appendFields (m : Data) (k : String) :
    Dict.get (appendFields m) k = (m.get k).map appendValue := by
  apply Option.ext
  intro s
  unfold Dict.get
  simp only [Option.mem_def]
  rw [find_key_eq_some_iff _ (by
    rw [List.map_reverse]
    exact List.nodup_reverse.mpr (appendFields_keys_nodup m)) k s, List.mem_reverse,
    mem_appendFields]
  cases m.get k with
  | none => simp
  | some v =>
    simp only [Option.some.injEq, exists_eq_left', Option.map_some']
    exact eq_comm

/-- Reading after more fields were appended: the later fields win. -/
theorem Dict.get_append (d a : Dict) (k : String) :
    Dict.get (d ++ a) k = match Dict.get a k with
      | some s => some s
      | none => Dict.get d k := by
  unfold Dict.get
  rw [List.reverse_append, List.find?_append]
  cases List.find? (fun e => e.1 == k) a.reverse <;> rfl

/-- The right-biased merge, in call order, of a map and a list of maps. -/
theorem Dict.get_foldl (fs : List Data) (d : Dict) (m : Data)
    (h : ∀ k, Dict.get d k = (m.get k).map appendValue) (k : String) :
    Dict.get (fs.foldl (fun d F => d ++ appendFields F) d) k =
      ((fs.foldl Data.merge m).get k).map appendValue := by
  induction fs generalizing d m with
  | nil => exact h k
  | cons F fs ih =>
    rw [List.foldl_cons, List.foldl_cons]
    apply ih
    intro k'
    rw [Dict.get_append, Dict.get_appendFields, Data.get_merge, h k']
    cases F.get k' <;> rfl

theorem count_keys_appendFields (m : Data) (k : String) :
    ((appendFields m).map Prod.fst).count k = if k ∈ m.keys then 1 else 0 := by
  rw [(appendFields_keys_perm m).count_eq]
  by_cases h : k ∈ m.keys
  · rw [if_pos h]
    exact List.count_eq_one_of_mem m.nodup h
  · rw [if_neg h]
    exact List.count_eq_zero_of_not_mem h

theorem count_keys_foldl (fs : List Data) (d : Dict) (k : String) :
    ((fs.foldl (fun d F => d ++ appendFields F) d).map Prod.fst).count k =
      (d.map Prod.fst).count k + (fs.filter (fun F => decide (k ∈ F.keys))).length := by
  induction fs generalizing d with
  | nil => simp
  | cons F fs ih =>
    rw [List.foldl_cons, ih, List.map_append, List.count_append, count_keys_appendFields,
      List.filter_cons]
    by_cases h : k ∈ F.keys
    · simp only [h, if_true, decide_True, List.length_cons]
      omega
    · simp only [h, if_false, decide_False]
      rfl

theorem foldl_append_flatten (fs : List Data) (d : Dict) :
    fs.foldl (fun d F => d ++ appendFields F) d = d ++ (fs.map appendFields).flatten := by
  induction fs generalizing d with
  | nil => simp
  | cons F fs ih => rw [List.foldl_cons, ih, List.map_cons, List.flatten_cons, List.append_assoc]

theorem mem_keys_foldl (fs : List Data) (d : Dict) (k : String) :
    k ∈ (fs.foldl (fun d F => d ++ appendFields F) d).map Prod.fst ↔
      k ∈ d.map Prod.fst ∨ ∃ F ∈ fs, k ∈ F.keys := by
  induction fs generalizing d with
  | nil => simp
  | cons F fs ih =>
    rw [List.foldl_cons, ih, List.map_append, List.mem_append, mem_keys_appendFields]
    simp only [List.mem_cons, exists_eq_or_imp]
    tauto

/-- Lookup in a merge of several maps: the last map that has the key wins. -/
theorem Data.get_foldl_merge (fs : List Data) (m : Data) (k : String) :
    (fs.foldl Data.merge m).get k =
      (m :: fs).reverse.findSome? (fun F => F.get k) := by
  induction fs generalizing m with
  | nil =>
    simp only [List.foldl_nil, List.reverse_cons, List.reverse_nil, List.nil_append,
      List.findSome?_cons, List.findSome?_nil]
    cases m.get k <;> rfl
  | cons F fs ih =>
    rw [List.foldl_cons, ih]
    simp only [List.reverse_cons, List.findSome?_append]
    cases hfs : List.findSome? (fun F => F.get k) fs.reverse with
    | some v => rfl
    | none =>
      simp only [Option.none_or, List.findSome?_cons, List.findSome?_nil, Data.get_merge]
      cases F.get k <;> cases m.get k <;> rfl

theorem rootFields_keys (m : Data) :
    (rootFields m).map Field.key = (appendFields m).map Prod.fst := by
  unfold rootFields
  rw [List.map_map]
  rfl

theorem newZL_context_keys (os : OS) (wr : Writer) (k : String) :
    k ∈ (newZL os wr).context.map Prod.fst → k = "host" ∨ k = "release" := by
  unfold newZL
  by_cases h : os.release = ""
  · simp only [h, ne_eq, not_true_eq_false, if_false, List.map_cons, List.map_nil,
      List.mem_singleton]
    exact Or.inl
  · simp only [h, ne_eq, not_false_eq_true, if_true, List.map_append, List.map_cons,
      List.map_nil, List.mem_append, List.mem_singleton]
    exact id

theorem Field.key_val (k : String) (v : Scalar) : (Field.val k v).key = k := rfl

theorem Field.key_dict (k : String) (d : List (String × Scalar)) :
    (Field.dict k d).key = k := rfl

theorem mem_keys_ite (c : Prop) [Decidable c] (x : Field) (k : String) :
    k ∈ List.map Field.key (if c then [x] else []) ↔ c ∧ k = x.key := by
  by_cases h : c <;> simp [h]

/-- The names of the top-level fields of a rendered entry. -/
theorem rendered_has (L : Logger) (level : Level) (msg : String) (fs : List Data)
    (env : Env) (w : World) (key : String) :
    (rendered L level msg fs env w).has key ↔
      key = "level" ∨ key ∈ L.zl.context.map Prod.fst ∨ key ∈ (w.read L.root).keys ∨
      (L.id ≠ "" ∧ key = "id") ∨ (hasData (w.read L.data) fs = true ∧ key = "data") ∨
      (L.err ≠ none ∧ key = "error") ∨ key = "nanoseconds" ∨ key = "timestamp" ∨
      (msg ≠ "" ∧ key = "message") := by
  unfold Entry.has
  rw [rendered_fields]
  have hctx : List.map Field.key (List.map (fun e => Field.val e.1 e.2) L.zl.context) =
      L.zl.context.map Prod.fst := by
    rw [List.map_map]
    apply List.map_congr_left
    intro a _
    rfl
  have herr : key ∈ List.map Field.key
      (match L.err with
        | some e => [Field.dict "error" (appendFields (errorFields e (errorStack e env)))]
        | none => []) ↔ (L.err ≠ none ∧ key = "error") := by
    cases L.err <;> simp [Field.key]
  simp only [List.map_append, List.mem_append, rootFields_keys, mem_keys_appendFields,
    List.map_cons, List.mem_cons, hctx, herr, mem_keys_ite, Field.key_val, Field.key_dict,
    List.map_nil, List.not_mem_nil, or_false, or_assoc]

/-! ## The middleware -/

theorem Split_ne_nil (sep : Char) (s : List Char) : Split sep s ≠ [] := by
  cases s with
  | nil => simp [Split]
  | cons c cs =>
    unfold Split
    by_cases h : c = sep
    · simp [h]
    · rw [if_neg h]
      cases Split sep cs <;> simp

/-- The index `len(split)-1` is in range: the client address is defined. -/
theorem clientIP_eq (req : Request) :
    clientIP req = some
      (if req.header.Get "x-forwarded-for" ≠ "" then
        String.mk (TrimSpace ((Split ',' (req.header.Get "x-forwarded-for").data).getLast
          (Split_ne_nil _ _)))
      else req.remoteAddr) := by
  unfold clientIP
  by_cases h : req.header.Get "x-forwarded-for" = ""
  · simp [h]
  · simp only [ne_eq, h, not_false_eq_true, if_true]
    rw [← List.getLast?_eq_getElem?, List.getLast?_eq_getLast _ (Split_ne_nil _ _)]

theorem attach_fst (m : Mw) (id : UUID) (ip : String) (s : St) :
    (m.attach id ip s).1 = { m.l with id := id.String, root := s.world.maps.length } := rfl

theorem attach_root (m : Mw) (id : UUID) (ip : String) (s : St) :
    (m.attach id ip s).2.world.read (m.attach id ip s).1.root =
      (Data.empty.merge (s.world.read m.l.root)).merge (requestRoot s.c ip) :=
  Root_read (m.l.ID id.String) (requestRoot s.c ip) s.world

theorem attach_root_lt (m : Mw) (id : UUID) (ip : String) (s : St) :
    (m.attach id ip s).1.root < (m.attach id ip s).2.world.maps.length := by
  show s.world.maps.length < ((m.l.ID id.String).Root (requestRoot s.c ip) s.world).2.maps.length
  rw [Root_length]
  exact Nat.lt_succ_self _

/-- The run of the middleware when the identifier was generated: the three
ways it ends. -/
theorem run_ok (m : Mw) (framework : HTTPErrorHandler) (next : HandlerFunc) (env : MwEnv)
    (s : St) (id : UUID) (ip : String) (hid : env.uuid = .ok id)
    (hip : clientIP s.c.request = some ip) :
    m.run framework next env s =
      match (next (m.attach id ip s).2).2 with
      | some err =>
        if m.opts.IsIgnorableError err then
          some ({ (next (m.attach id ip s).2).1 with
              world := ((m.attach id ip s).1.Err (some err)).Warn "ignored error" [] env.log
                (next (m.attach id ip s).2).1.world },
            some err)
        else
          some (Mw.finish (m.attach id ip s).1 env
            ((next (m.attach id ip s).2).1.Error framework err))
      | none => some (Mw.finish (m.attach id ip s).1 env (next (m.attach id ip s).2).1) := by
  unfold Mw.run
  rw [hid, hip]

theorem UUID.String_ne_empty (u : UUID) : u.String ≠ "" := by
  unfold UUID.String
  intro h
  have h2 := congrArg String.data h
  simp at h2

/-- A root entry of the logger is a top-level field of the rendered entry. -/
theorem rendered_root_field (L : Logger) (level : Level) (msg : String) (fs : List Data)
    (env : Env) (w : World) (k : String) (v : Value) (h : (w.read L.root).get k = some v) :
    Field.val k (appendValue v) ∈ (rendered L level msg fs env w).fields := by
  rw [rendered_fields]
  have hmem : Field.val k (appendValue v) ∈ rootFields (w.read L.root) := by
    unfold rootFields
    rw [List.mem_map]
    exact ⟨(k, appendValue v), (mem_appendFields _ _ _).mpr ⟨v, h, rfl⟩, rfl⟩
  simp only [List.mem_append]
  exact Or.inl (Or.inl (Or.inl (Or.inl (Or.inl (Or.inl (Or.inr hmem))))))

/-- The level, the identifier and the message of a rendered entry. -/
theorem rendered_level_id_message (L : Logger) (level : Level) (msg : String)
    (fs : List Data) (env : Env) (w : World) :
    Field.val "level" (.str level.String) ∈ (rendered L level msg fs env w).fields ∧
    (L.id ≠ "" → Field.val "id" (.str L.id) ∈ (rendered L level msg fs env w).fields) ∧
    (msg ≠ "" → Field.val "message" (.str msg) ∈ (rendered L level msg fs env w).fields) := by
  rw [rendered_fields]
  refine ⟨?_, ?_, ?_⟩
  · simp
  · intro h
    simp [h]
  · intro h
    simp [h]

theorem Data.ofList_get (l : List (String × Value)) (hl : (l.map Prod.fst).Nodup)
    (k : String) : (Data.ofList l).get k = (l.find? (fun e => e.1 == k)).map Prod.snd := by
  unfold Data.ofList
  rw [Data.foldl_set_get l hl]
  cases (l.find? (fun e => e.1 == k)).map Prod.snd <;> rfl

theorem requestRoot_nodup (c : Context) (ip : String) :
    (List.map Prod.fst [
      ("method", Value.str c.request.method),
      ("route", .str c.path),
      ("path", .str c.request.urlPath),
      ("ip_address", .str ip),
      ("trace_id", .str (c.request.header.Get "x-amzn-trace-id")),
      ("referer", .str c.request.Referer),
      ("user_agent", .str c.request.UserAgent)]).Nodup := by
  show ["method", "route", "path", "ip_address", "trace_id", "referer", "user_agent"].Nodup
  decide

theorem requestRoot_get (c : Context) (ip : String) :
    (requestRoot c ip).get "method" = some (.str c.request.method) ∧
    (requestRoot c ip).get "route" = some (.str c.path) ∧
    (requestRoot c ip).get "path" = some (.str c.request.urlPath) ∧
    (requestRoot c ip).get "ip_address" = some (.str ip) ∧
    (requestRoot c ip).get "trace_id" = some (.str (c.request.header.Get "x-amzn-trace-id")) ∧
    (requestRoot c ip).get "referer" = some (.str c.request.Referer) ∧
    (requestRoot c ip).get "user_agent" = some (.str c.request.UserAgent) := by
  unfold requestRoot
  simp only [Data.ofList_get _ (requestRoot_nodup c ip)]
  refine ⟨rfl, rfl, rfl, rfl, rfl, rfl, rfl⟩

theorem responseRoot_get (c : Context) (t1 t2 : Int) (k : String) :
    (responseRoot c t1 t2).get k =
      if k = "status_code" then some (.int c.status)
      else if k = "response_time" then some (.millis (t2 - t1))
      else none := by
  unfold responseRoot
  have hn : (List.map Prod.fst
      [("status_code", Value.int c.status), ("response_time", .millis (t2 - t1))]).Nodup := by
    show ["status_code", "response_time"].Nodup
    decide
  rw [Data.ofList_get _ hn]
  by_cases h1 : k = "status_code"
  · subst h1
    rfl
  · by_cases h2 : k = "response_time"
    · subst h2
      rfl
    · have hb1 : ("status_code" == k) = false := by simpa using fun h => h1 h.symm
      have hb2 : ("response_time" == k) = false := by simpa using fun h => h2 h.symm
      simp only [List.find?_cons, hb1, hb2, List.find?_nil, Option.map_none', h1, h2, if_false]

/-- Lines 79 to 86: one event is written, by a copy of the logger with the two
response fields in its root; the context, the error path and the maps that
exist are left as they are; nil is returned. -/
theorem finish_spec (log : Logger) (env : MwEnv) (s : St) :
    (Mw.finish log env s).2 = none ∧
    (Mw.finish log env s).1.world.out = s.world.out ++
      [rendered (log.Root (responseRoot s.c env.t1 env.t2) s.world).1 Level.info
        "handled request" [] env.log (log.Root (responseRoot s.c env.t1 env.t2) s.world).2] ∧
    (Mw.finish log env s).1.c = s.c ∧
    (Mw.finish log env s).1.errorPath = s.errorPath ∧
    (∀ r, r < s.world.maps.length → (Mw.finish log env s).1.world.read r = s.world.read r) := by
  refine ⟨rfl, ?_, rfl, rfl, ?_⟩
  · show (log.Root (responseRoot s.c env.t1 env.t2) s.world).2.out ++ _ = _
    rw [Root_out]
    rfl
  · intro r hr
    exact Root_frame log (responseRoot s.c env.t1 env.t2) s.world r hr

theorem settled_frame (framework : HTTPErrorHandler) (hfw : framework.preserves) (s : St)
    (r : Option GoError) :
    s.world.maps.length ≤ (Mw.settled framework s r).world.maps.length ∧
      ∀ a, a < s.world.maps.length → (Mw.settled framework s r).world.read a = s.world.read a := by
  cases r with
  | none => exact ⟨le_refl _, fun _ _ => rfl⟩
  | some err => exact hfw err s.world s.c

/-- The run of the middleware when the handler succeeds or returns an error
that is not ignorable. -/
theorem run_finish (m : Mw) (framework : HTTPErrorHandler) (next : HandlerFunc) (env : MwEnv)
    (s : St) (id : UUID) (ip : String) (hid : env.uuid = .ok id)
    (hip : clientIP s.c.request = some ip)
    (hres : ∀ err, (next (m.attach id ip s).2).2 = some err →
      m.opts.IsIgnorableError err = false) :
    m.run framework next env s =
      some (Mw.finish (m.attach id ip s).1 env
        (Mw.settled framework (next (m.attach id ip s).2).1 (next (m.attach id ip s).2).2)) := by
  rw [run_ok m framework next env s id ip hid hip]
  cases hr : (next (m.attach id ip s).2).2 with
  | none => rfl
  | some err =>
    have := hres err hr
    simp only [this, Bool.false_eq_true, if_false]
    rfl

/-! ## Splitting and trimming -/

/-- The last piece of a split: it is the part of the string after the last
separator, or the whole string when there is no separator. -/
theorem Split_getLast (sep : Char) (s : List Char) :
    ∃ before last, (Split sep s).getLast? = some last ∧ s = before ++ last ∧
      (before = [] ↔ (Split sep s).length = 1) ∧
      (before ≠ [] → before.getLast? = some sep) ∧ sep ∉ last := by
  induction s with
  | nil => exact ⟨[], [], rfl, rfl, by simp [Split], fun h => absurd rfl h, by simp⟩
  | cons c cs ih =>
    obtain ⟨b, l, h1, h2, h3, h4, h5⟩ := ih
    have hne := Split_ne_nil sep cs
    by_cases hc : c = sep
    · refine ⟨c :: b, l, ?_, by rw [h2]; rfl, ?_, ?_, h5⟩
      · unfold Split
        rw [if_pos hc]
        cases hs : Split sep cs with
        | nil => exact absurd hs hne
        | cons x xs =>
          rw [List.getLast?_cons_cons, ← hs]
          exact h1
      · unfold Split
        rw [if_pos hc]
        cases hs : Split sep cs with
        | nil => exact absurd hs hne
        | cons x xs => simp
      · intro _
        cases b with
        | nil => simp [hc]
        | cons x xs =>
          rw [List.getLast?_cons_cons]
          exact h4 (by simp)
    · cases hs : Split sep cs with
      | nil => exact absurd hs hne
      | cons x xs =>
        cases xs with
        | nil =>
          rw [hs] at h1 h3
          have hb : b = [] := h3.mpr rfl
          have hx : x = l := by simpa using h1
          subst hb
          subst hx
          refine ⟨[], c :: x, ?_, by rw [h2]; rfl, ?_, fun h => absurd rfl h, ?_⟩
          · unfold Split
            rw [if_neg hc, hs]
            rfl
          · unfold Split
            rw [if_neg hc, hs]
            simp
          · simp only [List.mem_cons, not_or]
            exact ⟨fun h => hc h.symm, h5⟩
        | cons y ys =>
          rw [hs] at h1 h3
          have hb : b ≠ [] := fun h => by
            have := h3.mp h
            simp at this
          refine ⟨c :: b, l, ?_, by rw [h2]; rfl, ?_, ?_, h5⟩
          · unfold Split
            rw [if_neg hc, hs]
            simpa using h1
          · unfold Split
            rw [if_neg hc, hs]
            simp
          · intro _
            cases b with
            | nil => exact absurd rfl hb
            | cons z zs =>
              rw [List.getLast?_cons_cons]
              exact h4 hb

/-- Trimming: the string is white space, then the trimmed string, then white
space, and the trimmed string neither starts nor ends with white space. -/
theorem TrimSpace_spec (s : List Char) :
    ∃ pre post, s = pre ++ TrimSpace s ++ post ∧
      (∀ c ∈ pre, isSpace c = true) ∧ (∀ c ∈ post, isSpace c = true) ∧
      (∀ c, (TrimSpace s).head? = some c → isSpace c = false) ∧
      (∀ c, (TrimSpace s).getLast? = some c → isSpace c = false) := by
  refine ⟨s.takeWhile isSpace, (((s.dropWhile isSpace).reverse).takeWhile isSpace).reverse,
    ?_, ?_, ?_, ?_, ?_⟩
  · unfold TrimSpace
    rw [List.append_assoc, ← List.reverse_append, List.takeWhile_append_dropWhile,
      List.reverse_reverse, List.takeWhile_append_dropWhile]
  · intro c hc
    exact List.mem_takeWhile_imp hc
  · intro c hc
    rw [List.mem_reverse] at hc
    exact List.mem_takeWhile_imp hc
  · intro c hc
    have hd := List.head?_dropWhile_not isSpace s
    have hsplit : s.dropWhile isSpace = TrimSpace s ++
        (((s.dropWhile isSpace).reverse).takeWhile isSpace).reverse := by
      unfold TrimSpace
      rw [← List.reverse_append, List.takeWhile_append_dropWhile, List.reverse_reverse]
    rw [hsplit, List.head?_append, hc] at hd
    exact hd
  · intro c hc
    have hd := List.head?_dropWhile_not isSpace (s.dropWhile isSpace).reverse
    unfold TrimSpace at hc
    rw [List.getLast?_reverse] at hc
    rw [hc] at hd
    exact hd

/-- A top-level field of a rendered entry is a root field, a context field of
the library logger, or one of the fields `log` and the library write. -/
theorem rendered_field_cases (L : Logger) (level : Level) (msg : String) (fs : List Data)
    (env : Env) (w : World) (f : Field) (hf : f ∈ (rendered L level msg fs env w).fields) :
    f ∈ rootFields (w.read L.root) ∨ f.key ∈ L.zl.context.map Prod.fst ∨
      f.key ∈ ["level", "id", "data", "error", "nanoseconds", "timestamp", "message"] := by
  rw [rendered_fields] at hf
  rcases List.mem_append.mp hf with hf | hf
  · rcases List.mem_append.mp hf with hf | hf
    · rcases List.mem_append.mp hf with hf | hf
      · rcases List.mem_append.mp hf with hf | hf
        · rcases List.mem_append.mp hf with hf | hf
          · rcases List.mem_append.mp hf with hf | hf
            · rcases List.mem_append.mp hf with hf | hf
              · rcases List.mem_cons.mp hf with hf | hf
                · subst hf
                  exact Or.inr (Or.inr (by simp [Field.key]))
                · obtain ⟨a, ha, rfl⟩ := List.mem_map.mp hf
                  exact Or.inr (Or.inl (List.mem_map.mpr ⟨a, ha, rfl⟩))
              · exact Or.inl hf
            · by_cases h : L.id = ""
              · simp [h] at hf
              · simp only [ne_eq, h, not_false_eq_true, if_true, List.mem_singleton] at hf
                subst hf
                exact Or.inr (Or.inr (by simp [Field.key]))
          · cases h : hasData (w.read L.data) fs with
            | false => simp [h] at hf
            | true =>
              simp only [h, if_true, List.mem_singleton] at hf
              subst hf
              exact Or.inr (Or.inr (by simp [Field.key]))
        · cases h : L.err with
          | none => simp [h] at hf
          | some e =>
            simp only [h, List.mem_singleton] at hf
            subst hf
            exact Or.inr (Or.inr (by simp [Field.key]))
      · rw [List.mem_singleton] at hf
        subst hf
        exact Or.inr (Or.inr (by simp [Field.key]))
    · rw [List.mem_singleton] at hf
      subst hf
      exact Or.inr (Or.inr (by simp [Field.key]))
  · by_cases h : msg = ""
    · simp [h] at hf
    · simp only [ne_eq, h, not_false_eq_true, if_true, List.mem_singleton] at hf
      subst hf
      exact Or.inr (Or.inr (by simp [Field.key]))

theorem rootFields_sub (L : Logger) (level : Level) (msg : String) (fs : List Data)
    (env : Env) (w : World) (f : Field) (hf : f ∈ rootFields (w.read L.root)) :
    f ∈ (rendered L level msg fs env w).fields := by
  rw [rendered_fields]
  simp only [List.mem_append]
  exact Or.inl (Or.inl (Or.inl (Or.inl (Or.inl (Or.inl (Or.inr hf))))))

/-! ## Runs of the middleware and the heap -/

theorem Context.Get_Set (c : Context) (key : String) (v : Any) :
    (c.Set key v).Get key = some v := by
  unfold Context.Get Context.Set
  simp only [List.find?_append]
  have hnone : List.find? (fun e => e.1 == key)
      (List.filter (fun e => e.1 != key) c.store) = none := by
    rw [List.find?_eq_none]
    intro x hx
    rw [List.mem_filter] at hx
    simpa using hx.2
  simp [hnone]

theorem attach_frame (m : Mw) (id : UUID) (ip : String) (s : St) :
    s.world.maps.length ≤ (m.attach id ip s).2.world.maps.length ∧
      ∀ r, r < s.world.maps.length → (m.attach id ip s).2.world.read r = s.world.read r := by
  constructor
  · show _ ≤ ((m.l.ID id.String).Root (requestRoot s.c ip) s.world).2.maps.length
    rw [Root_length]
    exact Nat.le_succ _
  · intro r hr
    exact Root_frame (m.l.ID id.String) (requestRoot s.c ip) s.world r hr

theorem finish_frame (log : Logger) (env : MwEnv) (s : St) :
    s.world.maps.length ≤ (Mw.finish log env s).1.world.maps.length ∧
      ∀ r, r < s.world.maps.length → (Mw.finish log env s).1.world.read r = s.world.read r := by
  constructor
  · show _ ≤ (log.Root (responseRoot s.c env.t1 env.t2) s.world).2.maps.length
    rw [Root_length]
    exact Nat.le_succ _
  · exact (finish_spec log env s).2.2.2.2

theorem Error_frame (framework : HTTPErrorHandler) (hfw : framework.preserves) (s : St)
    (err : GoError) :
    s.world.maps.length ≤ (s.Error framework err).world.maps.length ∧
      ∀ r, r < s.world.maps.length → (s.Error framework err).world.read r = s.world.read r :=
  hfw err s.world s.c

/-- A run of the middleware leaves the maps that exist as they are. -/
theorem run_frame (m : Mw) (framework : HTTPErrorHandler) (next : HandlerFunc) (env : MwEnv)
    (s s' : St) (r : Option GoError) (hp : next.preserves) (hfw : framework.preserves)
    (hrun : m.run framework next env s = some (s', r)) :
    s.world.maps.length ≤ s'.world.maps.length ∧
      ∀ a, a < s.world.maps.length → s'.world.read a = s.world.read a := by
  cases hu : env.uuid with
  | error e =>
    unfold Mw.run at hrun
    rw [hu] at hrun
    simp only [Option.some.injEq, Prod.mk.injEq] at hrun
    rw [← hrun.1]
    exact ⟨le_refl _, fun _ _ => rfl⟩
  | ok id =>
    obtain ⟨ip, hip⟩ : ∃ ip, clientIP s.c.request = some ip := ⟨_, clientIP_eq _⟩
    rw [run_ok m framework next env s id ip hu hip] at hrun
    have h0 := attach_frame m id ip s
    have h1 := hp (m.attach id ip s).2
    have h01 : s.world.maps.length ≤ (next (m.attach id ip s).2).1.world.maps.length ∧
        ∀ a, a < s.world.maps.length →
          (next (m.attach id ip s).2).1.world.read a = s.world.read a :=
      ⟨le_trans h0.1 h1.1, fun a ha => (h1.2 a (lt_of_lt_of_le ha h0.1)).trans (h0.2 a ha)⟩
    cases hres : (next (m.attach id ip s).2).2 with
    | none =>
      rw [hres] at hrun
      have hs : (Mw.finish (m.attach id ip s).1 env (next (m.attach id ip s).2).1).1 = s' :=
        congrArg Prod.fst (Option.some.inj hrun)
      have hf := finish_frame (m.attach id ip s).1 env (next (m.attach id ip s).2).1
      rw [← hs]
      exact ⟨le_trans h01.1 hf.1,
        fun a ha => (hf.2 a (lt_of_lt_of_le ha h01.1)).trans (h01.2 a ha)⟩
    | some err =>
      rw [hres] at hrun
      by_cases hign : m.opts.IsIgnorableError err = true
      · simp only [hign, if_true] at hrun
        have hs : ({ (next (m.attach id ip s).2).1 with
            world := ((m.attach id ip s).1.Err (some err)).Warn "ignored error" [] env.log
              (next (m.attach id ip s).2).1.world } : St) = s' :=
          congrArg Prod.fst (Option.some.inj hrun)
        rw [← hs]
        exact h01
      · simp only [hign, if_false] at hrun
        have hs : (Mw.finish (m.attach id ip s).1 env
            ((next (m.attach id ip s).2).1.Error framework err)).1 = s' :=
          congrArg Prod.fst (Option.some.inj hrun)
        have he := Error_frame framework hfw (next (m.attach id ip s).2).1 err
        have hf := finish_frame (m.attach id ip s).1 env
          ((next (m.attach id ip s).2).1.Error framework err)
        rw [← hs]
        exact ⟨le_trans h01.1 (le_trans he.1 hf.1),
          fun a ha => (hf.2 a (lt_of_lt_of_le ha (le_trans h01.1 he.1))).trans
            ((he.2 a (lt_of_lt_of_le ha h01.1)).trans (h01.2 a ha))⟩

theorem run_isSome (m : Mw) (framework : HTTPErrorHandler) (next : HandlerFunc) (env : MwEnv)
    (s : St) : ∃ s' r, m.run framework next env s = some (s', r) := by
  cases hu : env.uuid with
  | error e =>
    unfold Mw.run
    rw [hu]
    exact ⟨_, _, rfl⟩
  | ok id =>
    rw [run_ok m framework next env s id _ hu (clientIP_eq s.c.request)]
    cases (next (m.attach id _ s).2).2 with
    | none => exact ⟨_, _, rfl⟩
    | some err =>
      by_cases hign : m.opts.IsIgnorableError err = true
      · simp only [hign, if_true]
        exact ⟨_, _, rfl⟩
      · simp only [hign, if_false]
        exact ⟨_, _, rfl⟩

theorem serve_frame (m : Mw) (framework : HTTPErrorHandler) (hfw : framework.preserves)
    (w : World) (a : Arrival) (ha : a.next.preserves) :
    w.maps.length ≤ (m.serve framework w a).maps.length ∧
      ∀ r, r < w.maps.length → (m.serve framework w a).read r = w.read r := by
  unfold Mw.serve
  cases hrun : m.run framework a.next a.env { world := w, c := a.c, errorPath := [] } with
  | none => exact ⟨le_refl _, fun _ _ => rfl⟩
  | some res =>
    obtain ⟨s', r⟩ := res
    exact run_frame m framework a.next a.env _ s' r ha hfw hrun

/-- Serving any number of requests leaves the maps that exist as they are. -/
theorem serveAll_frame (m : Mw) (framework : HTTPErrorHandler) (hfw : framework.preserves)
    (as : List Arrival) (has : ∀ a ∈ as, a.next.preserves) (w : World) :
    w.maps.length ≤ (m.serveAll framework as w).maps.length ∧
      ∀ r, r < w.maps.length → (m.serveAll framework as w).read r = w.read r := by
  unfold Mw.serveAll
  induction as generalizing w with
  | nil => exact ⟨le_refl _, fun _ _ => rfl⟩
  | cons a as ih =>
    rw [List.foldl_cons]
    have h1 := serve_frame m framework hfw w a (has a (List.mem_cons_self _ _))
    have h2 := ih (fun b hb => has b (List.mem_cons_of_mem _ hb)) (m.serve framework w a)
    exact ⟨le_trans h1.1 h2.1, fun r hr => (h2.2 r (lt_of_lt_of_le hr h1.1)).trans (h1.2 r hr)⟩

/-! ## The fields of a rendered entry, one by one -/

/-- Where a top-level field of a rendered entry comes from. -/
theorem rendered_field_source (L : Logger) (level : Level) (msg : String) (fs : List Data)
    (env : Env) (w : World) (f : Field) (hf : f ∈ (rendered L level msg fs env w).fields) :
    f ∈ rootFields (w.read L.root) ∨ (∃ a ∈ L.zl.context, f = Field.val a.1 a.2) ∨
      f = Field.val "level" (.str level.String) ∨
      (L.id ≠ "" ∧ f = Field.val "id" (.str L.id)) ∨
      (hasData (w.read L.data) fs = true ∧ f = Field.dict "data" (dataDict (w.read L.data) fs)) ∨
      (∃ e, L.err = some e ∧
        f = Field.dict "error" (appendFields (errorFields e (errorStack e env)))) ∨
      f = Field.val "nanoseconds" (.int env.nanos) ∨
      f = Field.val "timestamp" (.time env.stamp) ∨
      (msg ≠ "" ∧ f = Field.val "message" (.str msg)) := by
  rw [rendered_fields] at hf
  rcases List.mem_append.mp hf with hf | hf
  · rcases List.mem_append.mp hf with hf | hf
    · rcases List.mem_append.mp hf with hf | hf
      · rcases List.mem_append.mp hf with hf | hf
        · rcases List.mem_append.mp hf with hf | hf
          · rcases List.mem_append.mp hf with hf | hf
            · rcases List.mem_append.mp hf with hf | hf
              · rcases List.mem_cons.mp hf with hf | hf
                · exact Or.inr (Or.inr (Or.inl hf))
                · obtain ⟨a, ha, rfl⟩ := List.mem_map.mp hf
                  exact Or.inr (Or.inl ⟨a, ha, rfl⟩)
              · exact Or.inl hf
            · by_cases h : L.id = ""
              · simp [h] at hf
              · simp only [ne_eq, h, not_false_eq_true, if_true, List.mem_singleton] at hf
                exact Or.inr (Or.inr (Or.inr (Or.inl ⟨h, hf⟩)))
          · cases h : hasData (w.read L.data) fs with
            | false => simp [h] at hf
            | true =>
              simp only [h, if_true, List.mem_singleton] at hf
              exact Or.inr (Or.inr (Or.inr (Or.inr (Or.inl ⟨rfl, hf⟩))))
        · cases h : L.err with
          | none => simp [h] at hf
          | some e =>
            simp only [h, List.mem_singleton] at hf
            exact Or.inr (Or.inr (Or.inr (Or.inr (Or.inr (Or.inl ⟨e, rfl, hf⟩)))))
      · rw [List.mem_singleton] at hf
        exact Or.inr (Or.inr (Or.inr (Or.inr (Or.inr (Or.inr (Or.inl hf))))))
    · rw [List.mem_singleton] at hf
      exact Or.inr (Or.inr (Or.inr (Or.inr (Or.inr (Or.inr (Or.inr (Or.inl hf)))))))
  · by_cases h : msg = ""
    · simp [h] at hf
    · simp only [ne_eq, h, not_false_eq_true, if_true, List.mem_singleton] at hf
      exact Or.inr (Or.inr (Or.inr (Or.inr (Or.inr (Or.inr (Or.inr (Or.inr ⟨h, hf⟩)))))))

theorem rootFields_key_mem (m : Data) (f : Field) (hf : f ∈ rootFields m) : f.key ∈ m.keys := by
  have : f.key ∈ (rootFields m).map Field.key := List.mem_map.mpr ⟨f, hf, rfl⟩
  rw [rootFields_keys, mem_keys_appendFields] at this
  exact this

/-- The fields named `id` of a rendered entry, for a logger of this package
whose root has no entry named `id`: the field of the logger's id. -/
theorem rendered_id_fields (L : Logger) (level : Level) (msg : String) (fs : List Data)
    (env : Env) (w : World) (os : OS) (wr : Writer) (hz : L.zl = newZL os wr)
    (hroot : "id" ∉ (w.read L.root).keys) (f : Field)
    (hf : f ∈ (rendered L level msg fs env w).fields) (hk : f.key = "id") :
    L.id ≠ "" ∧ f = Field.val "id" (.str L.id) := by
  rcases rendered_field_source L level msg fs env w f hf with
    h | ⟨a, ha, h⟩ | h | h | ⟨_, h⟩ | ⟨e, _, h⟩ | h | h | ⟨_, h⟩
  · exact absurd (hk ▸ rootFields_key_mem _ f h) hroot
  · subst h
    rw [hz] at ha
    rcases newZL_context_keys os wr a.1 (List.mem_map.mpr ⟨a, ha, rfl⟩) with h' | h'
    · rw [Field.key_val, h'] at hk
      exact absurd hk (by decide)
    · rw [Field.key_val, h'] at hk
      exact absurd hk (by decide)
  · subst h
    simp only [Field.key_val, Field.key_dict] at hk
    exact absurd hk (by decide)
  · exact h
  · subst h
    simp only [Field.key_val, Field.key_dict] at hk
    exact absurd hk (by decide)
  · subst h
    simp only [Field.key_val, Field.key_dict] at hk
    exact absurd hk (by decide)
  · subst h
    simp only [Field.key_val, Field.key_dict] at hk
    exact absurd hk (by decide)
  · subst h
    simp only [Field.key_val, Field.key_dict] at hk
    exact absurd hk (by decide)
  · subst h
    simp only [Field.key_val, Field.key_dict] at hk
    exact absurd hk (by decide)

theorem rendered_head (L : Logger) (level : Level) (msg : String) (fs : List Data)
    (env : Env) (w : World) :
    (rendered L level msg fs env w).fields.head? = some (Field.val "level" (.str level.String)) := by
  rw [rendered_fields]
  simp

theorem Data.same_merged_twice (a F G : Data) :
    ((Data.empty.merge ((Data.empty.merge a).merge F)).merge G).same
      ((Data.empty.merge a).merge (F.merge G)) := by
  intro k
  simp only [Data.get_merge, Data.get_merge_empty, Data.get_empty]
  cases G.get k <;> cases F.get k <;> cases a.get k <;> rfl

theorem Data.same_merged_empty (a : Data) :
    ((Data.empty.merge a).merge Data.empty).same a := by
  intro k
  simp only [Data.get_merge, Data.get_empty]
  cases a.get k <;> rfl

theorem Data.same_merged_again (a F : Data) :
    ((Data.empty.merge ((Data.empty.merge a).merge F)).merge F).same
      ((Data.empty.merge a).merge F) := by
  intro k
  simp only [Data.get_merge, Data.get_empty]
  cases F.get k <;> cases a.get k <;> rfl

/-- The names of the top-level fields of a rendered entry, in the order
written. -/
theorem rendered_keys (L : Logger) (level : Level) (msg : String) (fs : List Data)
    (env : Env) (w : World) :
    (rendered L level msg fs env w).fields.map Field.key =
      ("level" :: L.zl.context.map Prod.fst) ++ (appendFields (w.read L.root)).map Prod.fst ++
      (if L.id ≠ "" then ["id"] else []) ++
      (if hasData (w.read L.data) fs then ["data"] else []) ++
      (if L.err.isSome then ["error"] else []) ++
      ["nanoseconds"] ++ ["timestamp"] ++ (if msg ≠ "" then ["message"] else []) := by
  rw [rendered_fields]
  have hctx : List.map Field.key (List.map (fun e => Field.val e.1 e.2) L.zl.context) =
      L.zl.context.map Prod.fst := by
    rw [List.map_map]
    apply List.map_congr_left
    intro a _
    rfl
  simp only [List.map_append, List.map_cons, List.map_nil, hctx, rootFields_keys,
    Field.key_val]
  congr 1
  congr 1
  congr 1
  · congr 1
    · congr 1
      · congr 1
        by_cases h : L.id = "" <;> simp [h, Field.key_val]
      · cases hasData (w.read L.data) fs <;> simp [Field.key_dict]
    · cases L.err <;> simp [Field.key_dict]
  · by_cases h : msg = "" <;> simp [h, Field.key_val]

theorem newZL_context_sublist (os : OS) (wr : Writer) :
    ((newZL os wr).context.map Prod.fst).Sublist ["host", "release"] := by
  unfold newZL
  by_cases h : os.release = ""
  · simp [h]
  · simp [h]

theorem ite_singleton_sublist (c : Prop) [Decidable c] (x : String) :
    (if c then [x] else []).Sublist [x] := by
  by_cases h : c <;> simp [h]

/-! # The claims -/

/-- C1: the `data` map of `L.Data(F)` has as keys exactly the keys of `L.data`
and of `F`, maps every key of `F` to its value in `F` and every key of `L.data`
that is not in `F` to its value in `L.data`; the same holds for `L.Root(F)` and
`root`. -/
theorem Data_Root_right_biased_merge (L : Logger) (F : Data) (w : World) :
    ((∀ k, k ∈ ((L.Data F w).2.read (L.Data F w).1.data).keys ↔
        k ∈ (w.read L.data).keys ∨ k ∈ F.keys) ∧
      (∀ k v, F.get k = some v →
        ((L.Data F w).2.read (L.Data F w).1.data).get k = some v) ∧
      (∀ k, k ∈ (w.read L.data).keys → k ∉ F.keys →
        ((L.Data F w).2.read (L.Data F w).1.data).get k = (w.read L.data).get k)) ∧
    ((∀ k, k ∈ ((L.Root F w).2.read (L.Root F w).1.root).keys ↔
        k ∈ (w.read L.root).keys ∨ k ∈ F.keys) ∧
      (∀ k v, F.get k = some v →
        ((L.Root F w).2.read (L.Root F w).1.root).get k = some v) ∧
      (∀ k, k ∈ (w.read L.root).keys → k ∉ F.keys →
        ((L.Root F w).2.read (L.Root F w).1.root).get k = (w.read L.root).get k)) := by
  rw [Data_read, Root_read]
  exact ⟨Data.merged_spec _ _, Data.merged_spec _ _⟩

/-- C1, at the input of the claim: data `{a:1,b:2}` merged with `{b:3,c:4}`
gives `{a:1,b:3,c:4}`. -/
theorem Data_Root_right_biased_merge_witness :
    ((abLogger.Data bcData abWorld).2.read (abLogger.Data bcData abWorld).1.data).entries
      = [("a", .int 1), ("b", .int 3), ("c", .int 4)] ∧
    bcData.get "b" = some (.int 3) ∧
    ((abLogger.Data bcData abWorld).2.read (abLogger.Data bcData abWorld).1.data).get "b"
      = some (.int 3) :=
  ⟨by decide, by decide,
    (Data_Root_right_biased_merge abLogger bcData abWorld).1.2.1 "b" (.int 3) (by decide)⟩

/-- C2: no call changes a logger. For a logger `L` whose maps are on the heap
and any sequence of calls of `ID`, `Err`, `Data`, `Root`, `Info`, `Warn`,
`Error`, `Debug` on any loggers (on `L` itself, on the copies those calls
return, on copies of copies), the `data` map and the `root` map of `L` are
afterwards what they were before, and `L` renders the same event as before.
The `id` and `err` of `L` are fields of the struct value `L`, which every
method receives as a copy. -/
theorem calls_leave_logger_unchanged (L : Logger) (w : World) (h : L.valid w)
    (cs : List Call) :
    (execAll cs w).read L.data = w.read L.data ∧
    (execAll cs w).read L.root = w.read L.root ∧
    ∀ level msg fs env,
      rendered L level msg fs env (execAll cs w) = rendered L level msg fs env w := by
  have hd := (execAll_frame cs w).2 L.data h.1
  have hr := (execAll_frame cs w).2 L.root h.2
  exact ⟨hd, hr, fun level msg fs env => rendered_congr L level msg fs env _ _ hd hr⟩

/-- C2, at a concrete input: `abLogger` is derived four ways, the copy with more
data logs and is derived again, and `abLogger` itself logs. -/
theorem calls_leave_logger_unchanged_witness :
    abLogger.valid abWorld ∧
    (execAll
      [Call.ID abLogger "r-1", Call.Err abLogger (some ⟨"boom", none⟩),
        Call.Data abLogger bcData, Call.Root abLogger bcData,
        Call.Info (abLogger.Data bcData abWorld).1 "copy" [bcData] sampleEnv,
        Call.Root (abLogger.Data bcData abWorld).1 abData,
        Call.Warn abLogger "self" [bcData] sampleEnv] abWorld).read abLogger.data
      = abWorld.read abLogger.data :=
  ⟨by decide, (calls_leave_logger_unchanged abLogger abWorld (by decide) _).1⟩

/-- C3, refuted as stated: with logger data `{a:1,b:2}` and the call-site field
set `{b:3,c:4}` the nested `data` object has the key `b` twice, not exactly
once. -/
theorem data_object_repeats_key :
    (abWorld.read abLogger.data).len ≠ 0 ∧
    (rendered abLogger Level.info "m" [bcData] sampleEnv abWorld).objects "data" =
      [[("a", .int 1), ("b", .int 2), ("b", .int 3), ("c", .int 4)]] ∧
    (([("a", Scalar.int 1), ("b", .int 2), ("b", .int 3), ("c", .int 4)].map
      Prod.fst).count "b" = 2) := by
  decide

/-- C3 (amended): when the logger's data or some call-site field set is not
empty, the event has one nested `data` object; it holds the fields of `L.data`
followed by the fields of `F1`, ..., `Fn` in call order; its keys are the keys
of the union; a reader that keeps the last occurrence of a key finds the value
from the last of `L.data`, `F1`, ..., `Fn` that contains the key; and a key
occurs once for each of `L.data`, `F1`, ..., `Fn` that contains it. -/
theorem data_object_fields_in_call_order (L : Logger) (level : Level) (msg : String)
    (fs : List Data) (env : Env) (w : World)
    (h : (w.read L.data).len ≠ 0 ∨ ∃ F ∈ fs, F.len ≠ 0) :
    ∃ d, (rendered L level msg fs env w).objects "data" = [d] ∧
      d = appendFields (w.read L.data) ++ (fs.map appendFields).flatten ∧
      (∀ k, k ∈ d.map Prod.fst ↔ k ∈ (w.read L.data).keys ∨ ∃ F ∈ fs, k ∈ F.keys) ∧
      (∀ k, Dict.get d k =
        ((w.read L.data :: fs).reverse.findSome? (fun F => F.get k)).map appendValue) ∧
      (∀ k, (d.map Prod.fst).count k =
        ((w.read L.data :: fs).filter (fun F => decide (k ∈ F.keys))).length) := by
  refine ⟨dataDict (w.read L.data) fs, ?_, ?_, ?_, ?_, ?_⟩
  · rw [rendered_objects_data, (hasData_iff _ _).mpr h]
    rfl
  · rw [dataDict_eq, foldl_append_flatten]
  · intro k
    rw [dataDict_eq, mem_keys_foldl, mem_keys_appendFields]
  · intro k
    rw [dataDict_eq, Dict.get_foldl fs _ (w.read L.data) (Dict.get_appendFields _),
      Data.get_foldl_merge]
  · intro k
    rw [dataDict_eq, count_keys_foldl, count_keys_appendFields, List.filter_cons]
    by_cases hk : k ∈ (w.read L.data).keys
    · simp only [hk, if_true, decide_True, List.length_cons]
      omega
    · simp only [hk, if_false, decide_False, Bool.false_eq_true]
      omega

/-- C3 (amended), at a concrete input. -/
theorem data_object_fields_in_call_order_witness :
    ((abWorld.read abLogger.data).len ≠ 0 ∨ ∃ F ∈ [bcData], F.len ≠ 0) ∧
    ∃ d, (rendered abLogger Level.info "m" [bcData] sampleEnv abWorld).objects "data" = [d] ∧
      d = appendFields (abWorld.read abLogger.data) ++ ([bcData].map appendFields).flatten ∧
      (∀ k, k ∈ d.map Prod.fst ↔
        k ∈ (abWorld.read abLogger.data).keys ∨ ∃ F ∈ [bcData], k ∈ F.keys) ∧
      (∀ k, Dict.get d k =
        ((abWorld.read abLogger.data :: [bcData]).reverse.findSome?
          (fun F => F.get k)).map appendValue) ∧
      (∀ k, (d.map Prod.fst).count k =
        ((abWorld.read abLogger.data :: [bcData]).filter
          (fun F => decide (k ∈ F.keys))).length) :=
  ⟨Or.inl (by decide),
    data_object_fields_in_call_order abLogger Level.info "m" [bcData] sampleEnv abWorld
      (Or.inl (by decide))⟩

/-- C4, refuted as stated: a logger without data whose root has an entry named
`data`, called without field sets, renders an event that has a `data` field. -/
theorem data_field_without_data :
    (dataRootWorld.read abLogger.data).len = 0 ∧
    (rendered abLogger Level.info "m" [] sampleEnv dataRootWorld).fields =
      [Field.val "level" (.str "info"), Field.val "host" (.str "web-1"),
        Field.val "data" (.str "x"),
        Field.val "nanoseconds" (.int 1700000000000000000),
        Field.val "timestamp" (.time 1700000000), Field.val "message" (.str "m")] ∧
    (rendered abLogger Level.info "m" [] sampleEnv dataRootWorld).has "data" := by
  decide

/-- C4 (amended): the event holds a nested object written under `data` if and
only if `L.data` or some call-site field set is not empty; and when the root of
the logger has no entry named `data`, the event has a field named `data` if
and only if `L.data` or some call-site field set is not empty, so that it has
no `data` field at all when all of them are empty. -/
theorem data_object_iff_some_data (L : Logger) (level : Level) (msg : String)
    (fs : List Data) (env : Env) (w : World) :
    ((rendered L level msg fs env w).objects "data" ≠ [] ↔
      ((w.read L.data).len ≠ 0 ∨ ∃ F ∈ fs, F.len ≠ 0)) ∧
    (∀ os wr, L.zl = newZL os wr → "data" ∉ (w.read L.root).keys →
      ((rendered L level msg fs env w).has "data" ↔
        ((w.read L.data).len ≠ 0 ∨ ∃ F ∈ fs, F.len ≠ 0))) := by
  constructor
  · rw [rendered_objects_data, ← hasData_iff]
    cases hasData (w.read L.data) fs <;> simp
  · intro os wr hz hroot
    rw [rendered_has, ← hasData_iff, hz]
    constructor
    · rintro (h | h | h | h | h | h | h | h | h)
      · exact absurd h (by decide)
      · rcases newZL_context_keys os wr _ h with h' | h'
        · exact absurd h' (by decide)
        · exact absurd h' (by decide)
      · exact absurd h hroot
      · exact absurd h.2 (by decide)
      · exact h.1
      · exact absurd h.2 (by decide)
      · exact absurd h (by decide)
      · exact absurd h (by decide)
      · exact absurd h.2 (by decide)
    · intro h
      exact Or.inr (Or.inr (Or.inr (Or.inr (Or.inl ⟨h, rfl⟩))))

/-- C4 (amended), at a concrete input: no data, no field sets, a root without
an entry named `data`. -/
theorem data_object_iff_some_data_witness :
    abLogger.zl = newZL sampleOS Writer.stdout ∧
    "data" ∉ (emptyWorld.read abLogger.root).keys ∧
    ((rendered abLogger Level.info "m" [] sampleEnv emptyWorld).has "data" ↔
      ((emptyWorld.read abLogger.data).len ≠ 0 ∨ ∃ F ∈ ([] : List Data), F.len ≠ 0)) :=
  ⟨rfl, by decide,
    (data_object_iff_some_data abLogger Level.info "m" [] sampleEnv emptyWorld).2
      sampleOS Writer.stdout rfl (by decide)⟩

/-- C5: every key `k` of `R` is a top-level field of the event rendered by
`L.Root(R)`, with the value `R[k]`; and a key of the nested `data` object of
that event is a key of the logger's `data` or of a call-site field set, so
`Root` puts nothing under `data`. -/
theorem root_fields_are_top_level (L : Logger) (R : Data) (level : Level) (msg : String)
    (fs : List Data) (env : Env) (w : World) (h : L.valid w) :
    (∀ k v, R.get k = some v →
      Field.val k (appendValue v) ∈
        (rendered (L.Root R w).1 level msg fs env (L.Root R w).2).fields) ∧
    (∀ d ∈ (rendered (L.Root R w).1 level msg fs env (L.Root R w).2).objects "data",
      ∀ k ∈ d.map Prod.fst, k ∈ (w.read L.data).keys ∨ ∃ F ∈ fs, k ∈ F.keys) := by
  constructor
  · intro k v hv
    rw [rendered_fields, Root_read]
    have hmem : Field.val k (appendValue v) ∈
        rootFields ((Data.empty.merge (w.read L.root)).merge R) := by
      unfold rootFields
      rw [List.mem_map]
      refine ⟨(k, appendValue v), ?_, rfl⟩
      rw [mem_appendFields]
      exact ⟨v, by rw [Data.get_merge, hv], rfl⟩
    simp only [List.mem_append]
    exact Or.inl (Or.inl (Or.inl (Or.inl (Or.inl (Or.inl (Or.inr hmem))))))
  · intro d hd k hk
    have hdata : (L.Root R w).2.read (L.Root R w).1.data = w.read L.data :=
      Root_frame L R w L.data h.1
    rw [rendered_objects_data, hdata] at hd
    cases hh : hasData (w.read L.data) fs with
    | false => simp [hh] at hd
    | true =>
      simp only [hh, if_true, List.mem_singleton] at hd
      subst hd
      rw [dataDict_eq, mem_keys_foldl, mem_keys_appendFields] at hk
      exact hk

/-- C5, at the input of the claim: `L.Root({status_code:200})` renders
`status_code = 200` at top level and no nested `data` object. -/
theorem root_fields_are_top_level_witness :
    abLogger.valid emptyWorld ∧
    statusData.get "status_code" = some (.int 200) ∧
    Field.val "status_code" (.int 200) ∈
      (rendered (abLogger.Root statusData emptyWorld).1 Level.info "m" [] sampleEnv
        (abLogger.Root statusData emptyWorld).2).fields ∧
    (rendered (abLogger.Root statusData emptyWorld).1 Level.info "m" [] sampleEnv
        (abLogger.Root statusData emptyWorld).2).objects "data" = [] :=
  ⟨by decide, by decide,
    (root_fields_are_top_level abLogger statusData Level.info "m" [] sampleEnv emptyWorld
      (by decide)).1 "status_code" (.int 200) (by decide),
    by decide⟩

/-- C6, refuted as stated: an error whose `Error()` text is empty renders an
`error` object with an empty `message`, and an error whose `StackTrace()` has
no frame renders an `error` object with an empty `stack`. -/
theorem error_object_with_empty_parts :
    (rendered (abLogger.Err (some ⟨"", none⟩)) Level.error "m" [] sampleEnv
        emptyWorld).objects "error" =
      [[("message", .str ""), ("stack", .str "goroutine 1 [running]:")]] ∧
    (rendered (abLogger.Err (some ⟨"boom", some []⟩)) Level.error "m" [] sampleEnv
        emptyWorld).objects "error" =
      [[("message", .str "boom"), ("stack", .str "")]] := by
  decide

/-- C6 (amended): the event rendered by `L.Err(e)` for a non-nil `e` has one
`error` object, with `message` the `Error()` text of `e` and `stack` the stack
text: the formatted stack trace of `e` when `e` exposes `StackTrace()` (not
empty when the trace has a frame), otherwise the runtime snapshot cut to at
most 4096 bytes (not empty when the runtime wrote something). A logger with no
error attached renders no `error` object, and a freshly constructed logger
renders no field named `error`. -/
theorem error_object_of_attached_error (L : Logger) (e : GoError) (level : Level)
    (msg : String) (fs : List Data) (env : Env) (w : World) :
    (rendered (L.Err (some e)) level msg fs env w).objects "error" =
      [[("message", .str e.msg), ("stack", .str (String.mk (errorStack e env)))]] ∧
    (∀ st, e.stackTrace = some st →
      errorStack e env = formatStackTrace st ∧ (st ≠ [] → errorStack e env ≠ [])) ∧
    (e.stackTrace = none →
      errorStack e env = env.runtimeStack.take 4096 ∧ (errorStack e env).length ≤ 4096 ∧
        (env.runtimeStack ≠ [] → errorStack e env ≠ [])) ∧
    (rendered (L.Err none) level msg fs env w).objects "error" = [] ∧
    (∀ os wr w0, ((NewWithWriter os wr w0).1.err = none) ∧
      ¬ (rendered (NewWithWriter os wr w0).1 level msg fs env
        (NewWithWriter os wr w0).2).has "error") := by
  refine ⟨?_, ?_, ?_, ?_, ?_⟩
  · rw [rendered_objects_error]
    rfl
  · intro st hst
    unfold errorStack
    rw [hst]
    refine ⟨rfl, ?_⟩
    intro hne
    cases st with
    | nil => exact absurd rfl hne
    | cons f fs => simp [formatStackTrace]
  · intro hnone
    unfold errorStack
    rw [hnone]
    refine ⟨rfl, ?_, ?_⟩
    · show (List.take stackSize env.runtimeStack).length ≤ 4096
      rw [List.length_take]
      exact Nat.min_le_left _ _
    · intro hne
      show List.take stackSize env.runtimeStack ≠ []
      cases hrs : env.runtimeStack with
      | nil => exact absurd hrs hne
      | cons c cs => simp [stackSize]
  · rw [rendered_objects_error]
    rfl
  · intro os wr w0
    refine ⟨rfl, ?_⟩
    rw [rendered_has, (NewWithWriter_valid os wr w0).2.2]
    rintro (h | h | h | h | h | h | h | h | h)
    · exact absurd h (by decide)
    · rcases newZL_context_keys os wr _ h with h' | h'
      · exact absurd h' (by decide)
      · exact absurd h' (by decide)
    · simp [Data.keys, Data.empty] at h
    · exact absurd h.2 (by decide)
    · exact absurd h.2 (by decide)
    · exact h.1 rfl
    · exact absurd h (by decide)
    · exact absurd h (by decide)
    · exact absurd h.2 (by decide)

/-- C6 (amended), at a concrete input: an error with text and a stack trace of
one frame. -/
theorem error_object_of_attached_error_witness :
    (⟨"boom", some ["main.run\n\t/app/main.go:10"]⟩ : GoError).stackTrace =
      some ["main.run\n\t/app/main.go:10"] ∧
    (rendered (abLogger.Err (some ⟨"boom", some ["main.run\n\t/app/main.go:10"]⟩))
        Level.error "m" [] sampleEnv emptyWorld).objects "error" =
      [[("message", .str "boom"), ("stack", .str "\nmain.run\n\t/app/main.go:10")]] ∧
    errorStack ⟨"boom", some ["main.run\n\t/app/main.go:10"]⟩ sampleEnv ≠ [] :=
  ⟨rfl, by decide,
    ((error_object_of_attached_error abLogger ⟨"boom", some ["main.run\n\t/app/main.go:10"]⟩
      Level.error "m" [] sampleEnv emptyWorld).2.1 ["main.run\n\t/app/main.go:10"] rfl).2
      (by decide)⟩

/-- C7: when the handler returns an error that the configured
`IsIgnorableError` accepts, the middleware writes exactly one event, at level
`warn` with the message `ignored error`, whose `error` object carries the
error and which has the identifier and the root fields of the request; it
writes nothing else, hands nothing to `c.Error`, and returns the error
itself. A handler reaches the maps only through the exported methods, so the
maps that exist stay as they are (`preserves`). -/
theorem ignorable_error_warned_and_returned (m : Mw) (framework : HTTPErrorHandler)
    (next : HandlerFunc) (env : MwEnv) (s : St) (id : UUID) (ip : String) (err : GoError)
    (hid : env.uuid = .ok id) (hip : clientIP s.c.request = some ip)
    (hp : next.preserves)
    (hnext : (next (m.attach id ip s).2).2 = some err)
    (hign : m.opts.IsIgnorableError err = true) :
    ∃ s' e, m.run framework next env s = some (s', some err) ∧
      s'.world.out = (next (m.attach id ip s).2).1.world.out ++ [e] ∧
      s'.world.maps = (next (m.attach id ip s).2).1.world.maps ∧
      s'.c = (next (m.attach id ip s).2).1.c ∧
      s'.errorPath = (next (m.attach id ip s).2).1.errorPath ∧
      Field.val "level" (.str "warn") ∈ e.fields ∧
      Field.val "message" (.str "ignored error") ∈ e.fields ∧
      e.objects "error" =
        [[("message", .str err.msg), ("stack", .str (String.mk (errorStack err env.log)))]] ∧
      Field.val "id" (.str id.String) ∈ e.fields ∧
      (∀ k v, (requestRoot s.c ip).get k = some v →
        Field.val k (appendValue v) ∈ e.fields) := by
  refine ⟨{ (next (m.attach id ip s).2).1 with
      world := ((m.attach id ip s).1.Err (some err)).Warn "ignored error" [] env.log
        (next (m.attach id ip s).2).1.world },
    rendered ((m.attach id ip s).1.Err (some err)) Level.warn "ignored error" []
      env.log (next (m.attach id ip s).2).1.world, ?_, rfl, rfl, rfl, rfl, ?_, ?_, ?_, ?_, ?_⟩
  · rw [run_ok m framework next env s id ip hid hip, hnext]
    simp only [hign, if_true]
  · exact (rendered_level_id_message _ _ _ _ _ _).1
  · exact (rendered_level_id_message _ _ _ _ _ _).2.2 (by decide)
  · rw [rendered_objects_error]
    rfl
  · exact (rendered_level_id_message ((m.attach id ip s).1.Err (some err)) _ _ _ _ _).2.1
      (UUID.String_ne_empty id)
  · intro k v hv
    apply rendered_root_field
    show ((next (m.attach id ip s).2).1.world.read (m.attach id ip s).1.root).get k = _
    rw [(hp (m.attach id ip s).2).2 _ (attach_root_lt m id ip s), attach_root, Data.get_merge, hv]

/-- C7, at the input of the spec: only `ErrNotFound` is ignorable and the handler
returns `ErrNotFound`. -/
theorem ignorable_error_warned_and_returned_witness :
    sampleMwEnv.uuid = .ok sampleUUID ∧
    clientIP sampleSt.c.request = some "203.0.113.5" ∧
    notFoundHandler.preserves ∧
    (notFoundHandler (sampleMw.attach sampleUUID "203.0.113.5" sampleSt).2).2 = some ErrNotFound ∧
    sampleMw.opts.IsIgnorableError ErrNotFound = true ∧
    ∃ s' e, sampleMw.run notFoundResponder notFoundHandler sampleMwEnv sampleSt =
        some (s', some ErrNotFound) ∧
      s'.world.out =
        (notFoundHandler (sampleMw.attach sampleUUID "203.0.113.5" sampleSt).2).1.world.out ++
          [e] ∧
      s'.world.maps =
        (notFoundHandler (sampleMw.attach sampleUUID "203.0.113.5" sampleSt).2).1.world.maps ∧
      s'.c = (notFoundHandler (sampleMw.attach sampleUUID "203.0.113.5" sampleSt).2).1.c ∧
      s'.errorPath =
        (notFoundHandler (sampleMw.attach sampleUUID "203.0.113.5" sampleSt).2).1.errorPath ∧
      Field.val "level" (.str "warn") ∈ e.fields ∧
      Field.val "message" (.str "ignored error") ∈ e.fields ∧
      e.objects "error" =
        [[("message", .str ErrNotFound.msg),
          ("stack", .str (String.mk (errorStack ErrNotFound sampleMwEnv.log)))]] ∧
      Field.val "id" (.str sampleUUID.String) ∈ e.fields ∧
      (∀ k v, (requestRoot sampleSt.c "203.0.113.5").get k = some v →
        Field.val k (appendValue v) ∈ e.fields) :=
  ⟨rfl, by decide, fun _ => ⟨le_refl _, fun _ _ => rfl⟩, rfl, by decide,
    ignorable_error_warned_and_returned sampleMw notFoundResponder notFoundHandler sampleMwEnv
      sampleSt sampleUUID "203.0.113.5" ErrNotFound rfl (by decide)
      (fun _ => ⟨le_refl _, fun _ _ => rfl⟩) rfl (by decide)⟩

/-- C8: when the identifier was generated and the handler succeeds or returns
an error that is not ignorable, the middleware writes exactly one event after
the handler returned (and after `c.Error`, for an error), at level `info` with
the message `handled request`; the root fields it writes at top level are
those of the logger of the request with `status_code` (the status of the
response at that moment) and `response_time` stored over them, and its other
top-level fields are those every event has; the root map of the logger of the
request is what it was when the logger was attached; and the middleware
returns nil. A handler and an error handler reach the maps only through the
exported methods, so the maps that exist stay as they are (`preserves`). -/
theorem handled_request_logged_once (m : Mw) (framework : HTTPErrorHandler)
    (next : HandlerFunc) (env : MwEnv) (s : St) (id : UUID) (ip : String)
    (hid : env.uuid = .ok id) (hip : clientIP s.c.request = some ip)
    (hp : next.preserves) (hfw : framework.preserves)
    (hres : ∀ err, (next (m.attach id ip s).2).2 = some err →
      m.opts.IsIgnorableError err = false) :
    ∃ s' e, m.run framework next env s = some (s', none) ∧
      s'.world.out =
        (Mw.settled framework (next (m.attach id ip s).2).1
          (next (m.attach id ip s).2).2).world.out ++ [e] ∧
      Field.val "level" (.str "info") ∈ e.fields ∧
      Field.val "message" (.str "handled request") ∈ e.fields ∧
      Field.val "status_code" (.int (Mw.settled framework (next (m.attach id ip s).2).1
          (next (m.attach id ip s).2).2).c.status) ∈ e.fields ∧
      Field.val "response_time" (.millis (env.t2 - env.t1)) ∈ e.fields ∧
      (∀ k v, ((m.attach id ip s).2.world.read (m.attach id ip s).1.root).get k = some v →
        k ≠ "status_code" → k ≠ "response_time" → Field.val k (appendValue v) ∈ e.fields) ∧
      (∀ k v, (requestRoot s.c ip).get k = some v → Field.val k (appendValue v) ∈ e.fields) ∧
      (∃ M : Data,
        (∀ k, M.get k =
          if k = "status_code" then
            some (.int (Mw.settled framework (next (m.attach id ip s).2).1
              (next (m.attach id ip s).2).2).c.status)
          else if k = "response_time" then some (.millis (env.t2 - env.t1))
          else ((m.attach id ip s).2.world.read (m.attach id ip s).1.root).get k) ∧
        (∀ f, f ∈ rootFields M → f ∈ e.fields) ∧
        (∀ f, f ∈ e.fields → f ∈ rootFields M ∨ f.key ∈ m.l.zl.context.map Prod.fst ∨
          f.key ∈ ["level", "id", "data", "error", "nanoseconds", "timestamp", "message"])) ∧
      s'.world.read (m.attach id ip s).1.root =
        (m.attach id ip s).2.world.read (m.attach id ip s).1.root := by
  have hlt := attach_root_lt m id ip s
  have h1 := hp (m.attach id ip s).2
  have h2 := settled_frame framework hfw (next (m.attach id ip s).2).1
    (next (m.attach id ip s).2).2
  have hlt2 : (m.attach id ip s).1.root <
      (Mw.settled framework (next (m.attach id ip s).2).1
        (next (m.attach id ip s).2).2).world.maps.length :=
    lt_of_lt_of_le (lt_of_lt_of_le hlt h1.1) h2.1
  have hroot : (Mw.settled framework (next (m.attach id ip s).2).1
      (next (m.attach id ip s).2).2).world.read (m.attach id ip s).1.root =
      (m.attach id ip s).2.world.read (m.attach id ip s).1.root :=
    (h2.2 _ (lt_of_lt_of_le hlt h1.1)).trans (h1.2 _ hlt)
  have hf := finish_spec (m.attach id ip s).1 env
    (Mw.settled framework (next (m.attach id ip s).2).1 (next (m.attach id ip s).2).2)
  have hget : ∀ k, ((((m.attach id ip s).1.Root
      (responseRoot (Mw.settled framework (next (m.attach id ip s).2).1
        (next (m.attach id ip s).2).2).c env.t1 env.t2)
      (Mw.settled framework (next (m.attach id ip s).2).1
        (next (m.attach id ip s).2).2).world).2.read
      ((m.attach id ip s).1.Root
      (responseRoot (Mw.settled framework (next (m.attach id ip s).2).1
        (next (m.attach id ip s).2).2).c env.t1 env.t2)
      (Mw.settled framework (next (m.attach id ip s).2).1
        (next (m.attach id ip s).2).2).world).1.root).get k) =
      if k = "status_code" then some (.int (Mw.settled framework (next (m.attach id ip s).2).1
        (next (m.attach id ip s).2).2).c.status)
      else if k = "response_time" then some (.millis (env.t2 - env.t1))
      else ((m.attach id ip s).2.world.read (m.attach id ip s).1.root).get k := by
    intro k
    rw [Root_read, Data.get_merge, responseRoot_get, Data.get_merge_empty, hroot]
    by_cases hk1 : k = "status_code"
    · simp only [hk1, if_true]
    · by_cases hk2 : k = "response_time"
      · simp only [hk2, if_true]
        rfl
      · simp only [hk1, hk2, if_false]
  refine ⟨_, _, ?_, hf.2.1, ?_, ?_, ?_, ?_, ?_, ?_, ⟨_, hget, ?_, ?_⟩, ?_⟩
  · rw [run_finish m framework next env s id ip hid hip hres]
    exact congrArg some (Prod.ext rfl hf.1)
  · exact (rendered_level_id_message _ _ _ _ _ _).1
  · exact (rendered_level_id_message _ _ _ _ _ _).2.2 (by decide)
  · apply rendered_root_field _ _ _ _ _ _ "status_code" (.int _)
    rw [hget]
    rfl
  · apply rendered_root_field _ _ _ _ _ _ "response_time" (.millis _)
    rw [hget]
    rfl
  · intro k v hv hk1 hk2
    apply rendered_root_field
    rw [hget, if_neg hk1, if_neg hk2, hv]
  · intro k v hv
    have hv' : ((m.attach id ip s).2.world.read (m.attach id ip s).1.root).get k = some v := by
      rw [attach_root, Data.get_merge, hv]
    have hkeys : k ∈ ["method", "route", "path", "ip_address", "trace_id", "referer",
        "user_agent"] := by
      have hk : k ∈ (requestRoot s.c ip).keys := (Data.mem_keys_iff _ _).mpr ⟨v, hv⟩
      have hperm : (requestRoot s.c ip).keys = ["method", "route", "path", "ip_address",
        "trace_id", "referer", "user_agent"] := rfl
      rw [hperm] at hk
      exact hk
    apply rendered_root_field
    rw [hget, hv']
    have hk1 : k ≠ "status_code" := by
      rintro rfl
      revert hkeys
      decide
    have hk2 : k ≠ "response_time" := by
      rintro rfl
      revert hkeys
      decide
    rw [if_neg hk1, if_neg hk2]
  · intro f hfm
    exact rootFields_sub _ _ _ _ _ _ f hfm
  · intro f hfm
    exact rendered_field_cases _ _ _ _ _ _ f hfm
  · exact (hf.2.2.2.2 _ hlt2).trans hroot

/-- C8, at the input of the spec: `GET /widgets/42` matches no route, the handler
returns `ErrNotFound`, nothing is ignorable, and the framework answers 404. -/
theorem handled_request_logged_once_witness :
    sampleMwEnv.uuid = .ok sampleUUID ∧
    clientIP sampleSt.c.request = some "203.0.113.5" ∧
    notFoundHandler.preserves ∧ notFoundResponder.preserves ∧
    (∀ err, (notFoundHandler (defaultMw.attach sampleUUID "203.0.113.5" sampleSt).2).2 =
      some err → defaultMw.opts.IsIgnorableError err = false) ∧
    ∃ s' e, defaultMw.run notFoundResponder notFoundHandler sampleMwEnv sampleSt =
        some (s', none) ∧
      s'.world.out = [e] ∧
      Field.val "status_code" (.int 404) ∈ e.fields ∧
      Field.val "response_time" (.millis 2500000) ∈ e.fields ∧
      Field.val "ip_address" (.str "203.0.113.5") ∈ e.fields := by
  obtain ⟨s', e, h1, h2, _, _, h5, h6, _, h8, _, _⟩ :=
    handled_request_logged_once defaultMw notFoundResponder notFoundHandler sampleMwEnv
      sampleSt sampleUUID "203.0.113.5" rfl (by decide)
      (fun _ => ⟨le_refl _, fun _ _ => rfl⟩) (fun _ _ _ => ⟨le_refl _, fun _ _ => rfl⟩)
      (fun _ _ => rfl)
  exact ⟨rfl, by decide, fun _ => ⟨le_refl _, fun _ _ => rfl⟩,
    fun _ _ _ => ⟨le_refl _, fun _ _ => rfl⟩, fun _ _ => rfl,
    s', e, h1, h2, h5, h6, h8 "ip_address" (.str "203.0.113.5") rfl⟩

/-- C9: an error returned by the handler reaches the framework exactly once:
when it is ignorable the middleware returns it and hands nothing to `c.Error`;
when it is not, the middleware hands it to `c.Error` once and returns nil. -/
theorem handler_error_forwarded_once (m : Mw) (framework : HTTPErrorHandler)
    (next : HandlerFunc) (env : MwEnv) (s : St) (id : UUID) (ip : String) (err : GoError)
    (hid : env.uuid = .ok id) (hip : clientIP s.c.request = some ip)
    (hnext : (next (m.attach id ip s).2).2 = some err) :
    ∃ s' r, m.run framework next env s = some (s', r) ∧
      ((m.opts.IsIgnorableError err = true ∧ r = some err ∧
          s'.errorPath = (next (m.attach id ip s).2).1.errorPath) ∨
        (m.opts.IsIgnorableError err = false ∧ r = none ∧
          s'.errorPath = (next (m.attach id ip s).2).1.errorPath ++ [err])) := by
  rw [run_ok m framework next env s id ip hid hip, hnext]
  by_cases hign : m.opts.IsIgnorableError err = true
  · refine ⟨{ (next (m.attach id ip s).2).1 with
        world := ((m.attach id ip s).1.Err (some err)).Warn "ignored error" [] env.log
          (next (m.attach id ip s).2).1.world },
      some err, ?_, Or.inl ⟨hign, rfl, rfl⟩⟩
    simp only [hign, if_true]
  · have hf : m.opts.IsIgnorableError err = false := by simpa using hign
    refine ⟨(Mw.finish (m.attach id ip s).1 env
        ((next (m.attach id ip s).2).1.Error framework err)).1,
      none, ?_, Or.inr ⟨hf, rfl, rfl⟩⟩
    simp only [hf, Bool.false_eq_true, if_false]
    rfl

/-- C9, at two concrete inputs: the handler returns `ErrNotFound`, which is
ignorable for `sampleMw` and not for `defaultMw`. -/
theorem handler_error_forwarded_once_witness :
    sampleMwEnv.uuid = .ok sampleUUID ∧
    clientIP sampleSt.c.request = some "203.0.113.5" ∧
    (notFoundHandler (sampleMw.attach sampleUUID "203.0.113.5" sampleSt).2).2 =
      some ErrNotFound ∧
    (∃ s', sampleMw.run notFoundResponder notFoundHandler sampleMwEnv sampleSt =
      some (s', some ErrNotFound) ∧ s'.errorPath = []) ∧
    (∃ s', defaultMw.run notFoundResponder notFoundHandler sampleMwEnv sampleSt =
      some (s', none) ∧ s'.errorPath = [ErrNotFound]) := by
  refine ⟨rfl, by decide, rfl, ?_, ?_⟩
  · obtain ⟨s', r, h1, h2⟩ := handler_error_forwarded_once sampleMw notFoundResponder
      notFoundHandler sampleMwEnv sampleSt sampleUUID "203.0.113.5" ErrNotFound rfl
      (by decide) rfl
    rcases h2 with ⟨_, hr, he⟩ | ⟨hi, _, _⟩
    · subst hr
      exact ⟨s', h1, he⟩
    · exact absurd hi (by decide)
  · obtain ⟨s', r, h1, h2⟩ := handler_error_forwarded_once defaultMw notFoundResponder
      notFoundHandler sampleMwEnv sampleSt sampleUUID "203.0.113.5" ErrNotFound rfl
      (by decide) rfl
    rcases h2 with ⟨hi, _, _⟩ | ⟨_, hr, he⟩
    · exact absurd hi (by decide)
    · subst hr
      exact ⟨s', h1, he⟩

/-- C10: the `ip_address` root field of the logger of the request is the client
address, which is `RemoteAddr` when the header `X-Forwarded-For` is absent or
its value is empty, and otherwise the part of the value after its last comma
(all of it when it has no comma) without the white space at its two ends. -/
theorem ip_address_last_forwarded_entry (m : Mw) (id : UUID) (s : St) :
    ∃ ip, clientIP s.c.request = some ip ∧
      ((m.attach id ip s).2.world.read (m.attach id ip s).1.root).get "ip_address" =
        some (.str ip) ∧
      (s.c.request.header.find? (fun e => e.1 == "X-Forwarded-For") = none →
        ip = s.c.request.remoteAddr) ∧
      (s.c.request.header.Get "x-forwarded-for" = "" → ip = s.c.request.remoteAddr) ∧
      (s.c.request.header.Get "x-forwarded-for" ≠ "" →
        ∃ before seg pre post,
          (s.c.request.header.Get "x-forwarded-for").data = before ++ seg ∧
          (before = [] ∨ before.getLast? = some ',') ∧ ',' ∉ seg ∧
          seg = pre ++ ip.data ++ post ∧
          (∀ c ∈ pre, isSpace c = true) ∧ (∀ c ∈ post, isSpace c = true) ∧
          (∀ c, ip.data.head? = some c → isSpace c = false) ∧
          (∀ c, ip.data.getLast? = some c → isSpace c = false)) := by
  refine ⟨_, clientIP_eq s.c.request, ?_, ?_, ?_, ?_⟩
  · rw [attach_root, Data.get_merge, (requestRoot_get _ _).2.2.2.1]
  · intro hnone
    have hget : s.c.request.header.Get "x-forwarded-for" = "" := by
      unfold Header.Get
      have hkey : String.mk (canonicalChars true "x-forwarded-for".data) = "X-Forwarded-For" := by
        decide
      rw [hkey, hnone]
    rw [if_neg (fun h => h hget)]
  · intro hget
    rw [if_neg (fun h => h hget)]
  · intro hget
    rw [if_pos hget]
    obtain ⟨before, last, h1, h2, h3, h4, h5⟩ :=
      Split_getLast ',' (s.c.request.header.Get "x-forwarded-for").data
    have hlast : (Split ',' (s.c.request.header.Get "x-forwarded-for").data).getLast
        (Split_ne_nil _ _) = last := by
      rw [List.getLast?_eq_getLast _ (Split_ne_nil _ _)] at h1
      exact Option.some.inj h1
    rw [hlast]
    obtain ⟨pre, post, t1, t2, t3, t4, t5⟩ := TrimSpace_spec last
    refine ⟨before, last, pre, post, h2, ?_, h5, t1, t2, t3, t4, t5⟩
    by_cases hb : before = []
    · exact Or.inl hb
    · exact Or.inr (h4 hb)

/-- C10, at the input of the claim: `X-Forwarded-For: 10.0.0.1, 203.0.113.5`
gives `203.0.113.5`. -/
theorem ip_address_last_forwarded_entry_witness :
    sampleSt.c.request.header.Get "x-forwarded-for" = "10.0.0.1, 203.0.113.5" ∧
    clientIP sampleSt.c.request = some "203.0.113.5" ∧
    ((sampleMw.attach sampleUUID "203.0.113.5" sampleSt).2.world.read
      (sampleMw.attach sampleUUID "203.0.113.5" sampleSt).1.root).get "ip_address" =
        some (.str "203.0.113.5") := by
  obtain ⟨ip, h1, h2, _⟩ := ip_address_last_forwarded_entry sampleMw sampleUUID sampleSt
  have hip : clientIP sampleSt.c.request = some "203.0.113.5" := by decide
  have : ip = "203.0.113.5" := Option.some.inj (h1.symm.trans hip)
  subst this
  exact ⟨by decide, hip, h2⟩

/-- C11: for a middleware built by `MiddlewareWithConfig` and a request that
arrives after any number of earlier requests were served by it, the logger
attached to the context of the request has as id the string form of the
identifier of the request, no error, an empty data map, and a root map whose
entries are exactly the seven entries `method`, `route`, `path`, `ip_address`,
`trace_id`, `referer`, `user_agent` of this request; the maps of the shared
logger `l` are still empty, before and after. Handlers and the error handler
reach the maps only through the exported methods (`preserves`). -/
theorem request_logger_of_each_request (os : OS) (opts : MiddlewareConfig) (w0 : World)
    (m : Mw) (w1 : World) (hm : MiddlewareWithConfig os opts w0 = (m, w1))
    (framework : HTTPErrorHandler) (hfw : framework.preserves)
    (as : List Arrival) (has : ∀ a ∈ as, a.next.preserves)
    (s : St) (hs : s.world = m.serveAll framework as w1) (id : UUID) :
    ∃ ip, clientIP s.c.request = some ip ∧
      (m.attach id ip s).2.c.Get echoKey = some (Any.logger (m.attach id ip s).1) ∧
      (m.attach id ip s).1.id = id.String ∧
      (m.attach id ip s).1.err = none ∧
      (m.attach id ip s).2.world.read (m.attach id ip s).1.data = Data.empty ∧
      (∀ k, ((m.attach id ip s).2.world.read (m.attach id ip s).1.root).get k =
        (requestRoot s.c ip).get k) ∧
      (∀ k, k ∈ ((m.attach id ip s).2.world.read (m.attach id ip s).1.root).keys ↔
        k ∈ ["method", "route", "path", "ip_address", "trace_id", "referer", "user_agent"]) ∧
      ((requestRoot s.c ip).get "method" = some (.str s.c.request.method) ∧
        (requestRoot s.c ip).get "route" = some (.str s.c.path) ∧
        (requestRoot s.c ip).get "path" = some (.str s.c.request.urlPath) ∧
        (requestRoot s.c ip).get "ip_address" = some (.str ip) ∧
        (requestRoot s.c ip).get "trace_id" =
          some (.str (s.c.request.header.Get "x-amzn-trace-id")) ∧
        (requestRoot s.c ip).get "referer" = some (.str s.c.request.Referer) ∧
        (requestRoot s.c ip).get "user_agent" = some (.str s.c.request.UserAgent)) ∧
      (s.world.read m.l.data = Data.empty ∧ s.world.read m.l.root = Data.empty) ∧
      ((m.attach id ip s).2.world.read m.l.data = Data.empty ∧
        (m.attach id ip s).2.world.read m.l.root = Data.empty) := by
  obtain ⟨ip, hip⟩ : ∃ ip, clientIP s.c.request = some ip := ⟨_, clientIP_eq _⟩
  have hml : m.l = (New os w0).1 := by
    have := congrArg (fun p => p.1.l) hm
    exact this.symm
  have hw1 : w1 = (New os w0).2 := by
    have := congrArg Prod.snd hm
    exact this.symm
  have hnew := NewWithWriter_valid os Writer.stdout w0
  have hvalid : m.l.valid w1 := by
    rw [hml, hw1]
    exact hnew.1
  have hd1 : w1.read m.l.data = Data.empty := by
    rw [hml, hw1]
    exact hnew.2.1
  have hr1 : w1.read m.l.root = Data.empty := by
    rw [hml, hw1]
    exact hnew.2.2
  have hfr := serveAll_frame m framework hfw as has w1
  rw [← hs] at hfr
  have hd : s.world.read m.l.data = Data.empty := (hfr.2 _ hvalid.1).trans hd1
  have hr : s.world.read m.l.root = Data.empty := (hfr.2 _ hvalid.2).trans hr1
  have hat := attach_frame m id ip s
  have hd' : (m.attach id ip s).2.world.read m.l.data = Data.empty :=
    (hat.2 _ (lt_of_lt_of_le hvalid.1 hfr.1)).trans hd
  have hr' : (m.attach id ip s).2.world.read m.l.root = Data.empty :=
    (hat.2 _ (lt_of_lt_of_le hvalid.2 hfr.1)).trans hr
  have hget : ∀ k, ((m.attach id ip s).2.world.read (m.attach id ip s).1.root).get k =
      (requestRoot s.c ip).get k := by
    intro k
    rw [attach_root, hr, Data.get_merge, Data.get_merge_empty]
    cases (requestRoot s.c ip).get k <;> rfl
  refine ⟨ip, hip, Context.Get_Set _ _ _, rfl, ?_, hd', hget, ?_, requestRoot_get s.c ip,
    ⟨hd, hr⟩, ⟨hd', hr'⟩⟩
  · show m.l.err = none
    rw [hml]
    rfl
  · intro k
    rw [Data.mem_keys_iff]
    simp only [hget]
    rw [← Data.mem_keys_iff]
    have hkeys : (requestRoot s.c ip).keys = ["method", "route", "path", "ip_address",
      "trace_id", "referer", "user_agent"] := rfl
    rw [hkeys]

/-- C11, at a concrete input: the sample request arrives after two other
requests were served by the same middleware. -/
theorem request_logger_of_each_request_witness :
    MiddlewareWithConfig sampleOS ignoreNotFound ⟨[], [], false⟩ = (sampleMw, sampleSt.world) ∧
    notFoundResponder.preserves ∧
    (∀ a ∈ [otherArrival, sampleArrival], a.next.preserves) ∧
    laterSt.world = sampleMw.serveAll notFoundResponder [otherArrival, sampleArrival]
      sampleSt.world ∧
    ∃ ip, clientIP laterSt.c.request = some ip ∧
      (sampleMw.attach sampleUUID ip laterSt).1.id = sampleUUID.String ∧
      (∀ k, ((sampleMw.attach sampleUUID ip laterSt).2.world.read
        (sampleMw.attach sampleUUID ip laterSt).1.root).get k =
          (requestRoot laterSt.c ip).get k) := by
  have hall : ∀ a ∈ [otherArrival, sampleArrival], a.next.preserves := by
    intro a ha
    have h : a.next = notFoundHandler := by
      simp only [List.mem_cons, List.mem_singleton, List.not_mem_nil, or_false] at ha
      rcases ha with rfl | rfl <;> rfl
    rw [h]
    exact fun _ => ⟨le_refl _, fun _ _ => rfl⟩
  have hfw : notFoundResponder.preserves := fun _ _ _ => ⟨le_refl _, fun _ _ => rfl⟩
  obtain ⟨ip, h1, _, h3, _, _, h6, _⟩ :=
    request_logger_of_each_request sampleOS ignoreNotFound ⟨[], [], false⟩ sampleMw
      sampleSt.world rfl notFoundResponder hfw [otherArrival, sampleArrival] hall laterSt rfl
      sampleUUID
  exact ⟨rfl, hfw, hall, rfl, ip, h1, h3, h6⟩

/-- C12, refuted as stated: a logger with an empty id whose root has an entry
named `id` renders an event that has a top-level `id` field. -/
theorem id_field_without_id :
    abLogger.id = "" ∧
    (rendered abLogger Level.info "m" [] sampleEnv idRootWorld).fields =
      [Field.val "level" (.str "info"), Field.val "host" (.str "web-1"),
        Field.val "id" (.str "x"),
        Field.val "nanoseconds" (.int 1700000000000000000),
        Field.val "timestamp" (.time 1700000000), Field.val "message" (.str "m")] ∧
    (rendered abLogger Level.info "m" [] sampleEnv idRootWorld).has "id" := by
  decide

/-- C12 (amended): when `L.id` is not empty the event has the top-level field
`id` with the value `L.id`; and for a logger whose root has no entry named
`id`, the event has a field named `id` if and only if `L.id` is not empty, any
such field is the one with the value `L.id`, and after `L.ID("")` the event has
no field named `id`. -/
theorem id_field_iff_id_set (L : Logger) (level : Level) (msg : String) (fs : List Data)
    (env : Env) (w : World) :
    (L.id ≠ "" → Field.val "id" (.str L.id) ∈ (rendered L level msg fs env w).fields) ∧
    (∀ os wr, L.zl = newZL os wr → "id" ∉ (w.read L.root).keys →
      ((rendered L level msg fs env w).has "id" ↔ L.id ≠ "") ∧
      (∀ f ∈ (rendered L level msg fs env w).fields, f.key = "id" →
        f = Field.val "id" (.str L.id)) ∧
      ¬ (rendered (L.ID "") level msg fs env w).has "id") := by
  refine ⟨(rendered_level_id_message L level msg fs env w).2.1, ?_⟩
  intro os wr hz hroot
  refine ⟨?_, ?_, ?_⟩
  · constructor
    · intro h
      unfold Entry.has at h
      obtain ⟨f, hf, hk⟩ := List.mem_map.mp h
      exact (rendered_id_fields L level msg fs env w os wr hz hroot f hf hk).1
    · intro h
      exact List.mem_map.mpr ⟨_, (rendered_level_id_message L level msg fs env w).2.1 h, rfl⟩
  · intro f hf hk
    exact (rendered_id_fields L level msg fs env w os wr hz hroot f hf hk).2
  · intro h
    unfold Entry.has at h
    obtain ⟨f, hf, hk⟩ := List.mem_map.mp h
    exact (rendered_id_fields (L.ID "") level msg fs env w os wr hz hroot f hf hk).1 rfl

/-- C12 (amended), at a concrete input: a logger with the id `r-1` and an empty
root, and the same logger after `ID("")`. -/
theorem id_field_iff_id_set_witness :
    (abLogger.ID "r-1").zl = newZL sampleOS Writer.stdout ∧
    "id" ∉ (emptyWorld.read (abLogger.ID "r-1").root).keys ∧
    ((rendered (abLogger.ID "r-1") Level.info "m" [] sampleEnv emptyWorld).has "id" ↔
      (abLogger.ID "r-1").id ≠ "") ∧
    Field.val "id" (.str "r-1") ∈
      (rendered (abLogger.ID "r-1") Level.info "m" [] sampleEnv emptyWorld).fields ∧
    ¬ (rendered ((abLogger.ID "r-1").ID "") Level.info "m" [] sampleEnv emptyWorld).has "id" :=
  ⟨rfl, by decide,
    ((id_field_iff_id_set (abLogger.ID "r-1") Level.info "m" [] sampleEnv emptyWorld).2
      sampleOS Writer.stdout rfl (by decide)).1,
    by decide,
    ((id_field_iff_id_set (abLogger.ID "r-1") Level.info "m" [] sampleEnv emptyWorld).2
      sampleOS Writer.stdout rfl (by decide)).2.2⟩

/-- C13: `FromContext` returns the logger that `WithContext` attached, and for
a context without a logger under the private key it returns what `New` builds,
a logger with an empty id, no error and empty data and root maps; the same
holds for `FromEchoContext` and the value stored under the key `logger`. -/
theorem context_round_trip_and_default (os : OS) (w : World) (L : Logger) :
    (∀ ctx : GoContext, FromContext os (L.WithContext ctx) w = (L, w)) ∧
    (∀ ctx : GoContext, (∀ L', ctx.Value CtxKey.key ≠ some (Any.logger L')) →
      FromContext os ctx w = New os w) ∧
    (∀ s : St, FromEchoContext os { s with c := s.c.Set echoKey (Any.logger L) } =
      (L, s.world)) ∧
    (∀ s : St, (∀ L', s.c.Get echoKey ≠ some (Any.logger L')) →
      FromEchoContext os s = New os s.world) ∧
    ((New os w).1.id = "" ∧ (New os w).1.err = none ∧
      (New os w).2.read (New os w).1.data = Data.empty ∧
      (New os w).2.read (New os w).1.root = Data.empty ∧
      (New os w).1.valid (New os w).2) := by
  refine ⟨?_, ?_, ?_, ?_, ?_⟩
  · intro ctx
    rfl
  · intro ctx h
    unfold FromContext
    cases hv : ctx.Value CtxKey.key with
    | none => rfl
    | some v =>
      cases v with
      | logger L' => exact absurd hv (h L')
      | other x => rfl
  · intro s
    unfold FromEchoContext
    simp only [Context.Get_Set]
  · intro s h
    unfold FromEchoContext
    cases hv : s.c.Get echoKey with
    | none => rfl
    | some v =>
      cases v with
      | logger L' => exact absurd hv (h L')
      | other x => rfl
  · have hnew := NewWithWriter_valid os Writer.stdout w
    exact ⟨rfl, rfl, hnew.2.1, hnew.2.2, hnew.1⟩

/-- C13, at concrete inputs: a context that holds only a value under another
key, and an echo context whose `logger` entry is not a logger. -/
theorem context_round_trip_and_default_witness :
    (∀ L', GoContext.Value [(CtxKey.other "user", Any.other (.str "ann"))] CtxKey.key ≠
      some (Any.logger L')) ∧
    FromContext sampleOS [(CtxKey.other "user", Any.other (.str "ann"))] emptyWorld =
      New sampleOS emptyWorld ∧
    FromContext sampleOS
      (abLogger.WithContext [(CtxKey.other "user", Any.other (.str "ann"))]) emptyWorld =
        (abLogger, emptyWorld) :=
  ⟨fun _ h => by simp [GoContext.Value] at h,
    (context_round_trip_and_default sampleOS emptyWorld abLogger).2.1 _
      (fun _ h => by simp [GoContext.Value] at h),
    (context_round_trip_and_default sampleOS emptyWorld abLogger).1 _⟩

/-- C14: when the identifier cannot be generated, the middleware returns the
generation error wrapped with a stack, which is not nil; the state is what it
was (no logger in the context, no event, nothing handed to `c.Error`), and
the result does not depend on the handler, which is not invoked. -/
theorem failed_identifier_is_returned (m : Mw) (framework : HTTPErrorHandler)
    (next : HandlerFunc) (env : MwEnv) (s : St) (err : GoError)
    (hid : env.uuid = .error err) :
    m.run framework next env s = some (s, some (WithStack err env.callers)) ∧
    (WithStack err env.callers).msg = err.msg ∧
    (WithStack err env.callers).stackTrace = some env.callers ∧
    (∀ next' : HandlerFunc, m.run framework next' env s = m.run framework next env s) := by
  have h : ∀ n : HandlerFunc,
      m.run framework n env s = some (s, some (WithStack err env.callers)) := by
    intro n
    unfold Mw.run
    rw [hid]
  exact ⟨h next, rfl, rfl, fun n => (h n).trans (h next).symm⟩

/-- C14, at a concrete input: the entropy source fails. -/
theorem failed_identifier_is_returned_witness :
    failedUUIDEnv.uuid = .error ⟨"entropy source failed", none⟩ ∧
    sampleMw.run notFoundResponder notFoundHandler failedUUIDEnv sampleSt =
      some (sampleSt, some (WithStack ⟨"entropy source failed", none⟩ failedUUIDEnv.callers)) :=
  ⟨rfl, (failed_identifier_is_returned sampleMw notFoundResponder notFoundHandler failedUUIDEnv
    sampleSt ⟨"entropy source failed", none⟩ rfl).1⟩

/-- C15: the default configuration accepts no error as ignorable; under
`Middleware()`, whenever the identifier was generated, the middleware returns
nil, the one event it writes is the `info` event `handled request` (so it
writes no `warn` event), and an error of the handler is handed to
`c.Error`. -/
theorem default_config_ignores_nothing (os : OS) (w0 : World) (framework : HTTPErrorHandler)
    (next : HandlerFunc) (env : MwEnv) (s : St) (id : UUID) (ip : String)
    (hid : env.uuid = .ok id) (hip : clientIP s.c.request = some ip) :
    (∀ err, defaultMiddlewareConfig.IsIgnorableError err = false) ∧
    (Middleware os w0).1.opts.IsIgnorableError = defaultMiddlewareConfig.IsIgnorableError ∧
    ∃ s' e, (Middleware os w0).1.run framework next env s = some (s', none) ∧
      s'.world.out =
        (Mw.settled framework (next ((Middleware os w0).1.attach id ip s).2).1
          (next ((Middleware os w0).1.attach id ip s).2).2).world.out ++ [e] ∧
      e.fields.head? = some (Field.val "level" (.str "info")) ∧
      Field.val "message" (.str "handled request") ∈ e.fields ∧
      (∀ err, (next ((Middleware os w0).1.attach id ip s).2).2 = some err →
        s'.errorPath = (next ((Middleware os w0).1.attach id ip s).2).1.errorPath ++ [err]) ∧
      ((next ((Middleware os w0).1.attach id ip s).2).2 = none →
        s'.errorPath = (next ((Middleware os w0).1.attach id ip s).2).1.errorPath) := by
  refine ⟨fun _ => rfl, rfl, ?_⟩
  have hf := finish_spec ((Middleware os w0).1.attach id ip s).1 env
    (Mw.settled framework (next ((Middleware os w0).1.attach id ip s).2).1
      (next ((Middleware os w0).1.attach id ip s).2).2)
  refine ⟨_, _, ?_, hf.2.1, rendered_head _ _ _ _ _ _,
    (rendered_level_id_message _ _ _ _ _ _).2.2 (by decide), ?_, ?_⟩
  · rw [run_finish (Middleware os w0).1 framework next env s id ip hid hip (fun _ _ => rfl)]
    exact congrArg some (Prod.ext rfl hf.1)
  · intro err herr
    rw [hf.2.2.2.1, herr]
    rfl
  · intro hnone
    rw [hf.2.2.2.1, hnone]
    rfl

/-- C15, at a concrete input: the handler returns `ErrNotFound` under the
default configuration. -/
theorem default_config_ignores_nothing_witness :
    sampleMwEnv.uuid = .ok sampleUUID ∧
    clientIP sampleSt.c.request = some "203.0.113.5" ∧
    ∃ s', (Middleware sampleOS ⟨[], [], false⟩).1.run notFoundResponder notFoundHandler
        sampleMwEnv sampleSt = some (s', none) ∧
      s'.errorPath = [ErrNotFound] := by
  obtain ⟨s', e, h1, _, _, _, h5, _⟩ :=
    (default_config_ignores_nothing sampleOS ⟨[], [], false⟩ notFoundResponder notFoundHandler
      sampleMwEnv sampleSt sampleUUID "203.0.113.5" rfl (by decide)).2.2
  exact ⟨rfl, by decide, s', h1, h5 ErrNotFound rfl⟩

/-- C16: `L.Err(e1).Err(e2)` is `L.Err(e2)`: the error attached is `e2`, the
rendered event has the `error` object of `e2` alone when `e2` is not nil and
no `error` object when it is nil, hence at most one. -/
theorem last_attached_error_wins (L : Logger) (e1 e2 : Option GoError) (level : Level)
    (msg : String) (fs : List Data) (env : Env) (w : World) :
    (L.Err e1).Err e2 = L.Err e2 ∧
    ((L.Err e1).Err e2).err = e2 ∧
    (rendered ((L.Err e1).Err e2) level msg fs env w).objects "error" =
      (match e2 with
        | some e => [[("message", .str e.msg), ("stack", .str (String.mk (errorStack e env)))]]
        | none => []) ∧
    ((rendered ((L.Err e1).Err e2) level msg fs env w).objects "error").length ≤ 1 := by
  refine ⟨rfl, rfl, rendered_objects_error _ _ _ _ _ _, ?_⟩
  rw [rendered_objects_error]
  cases e2 <;> simp [Logger.Err]

/-- C17: each deriving operation returns a logger that differs from the
receiver in its own field only: the library logger with its writer and the
other three of id, error, data map and root map are those of the receiver. -/
theorem derive_changes_own_field_only (L : Logger) (s : String) (e : Option GoError)
    (F : Data) (w : World) (h : L.valid w) :
    ((L.ID s).zl = L.zl ∧ (L.ID s).err = L.err ∧ (L.ID s).data = L.data ∧
      (L.ID s).root = L.root) ∧
    ((L.Err e).zl = L.zl ∧ (L.Err e).id = L.id ∧ (L.Err e).data = L.data ∧
      (L.Err e).root = L.root) ∧
    ((L.Data F w).1.zl = L.zl ∧ (L.Data F w).1.id = L.id ∧ (L.Data F w).1.err = L.err ∧
      (L.Data F w).1.root = L.root ∧
      (L.Data F w).2.read (L.Data F w).1.root = w.read L.root) ∧
    ((L.Root F w).1.zl = L.zl ∧ (L.Root F w).1.id = L.id ∧ (L.Root F w).1.err = L.err ∧
      (L.Root F w).1.data = L.data ∧
      (L.Root F w).2.read (L.Root F w).1.data = w.read L.data) :=
  ⟨⟨rfl, rfl, rfl, rfl⟩, ⟨rfl, rfl, rfl, rfl⟩,
    ⟨rfl, rfl, rfl, rfl, Data_frame L F w L.root h.2⟩,
    ⟨rfl, rfl, rfl, rfl, Root_frame L F w L.data h.1⟩⟩

/-- C17, at a concrete input. -/
theorem derive_changes_own_field_only_witness :
    abLogger.valid abWorld ∧
    (abLogger.Root bcData abWorld).2.read (abLogger.Root bcData abWorld).1.data =
      abWorld.read abLogger.data :=
  ⟨by decide,
    (derive_changes_own_field_only abLogger "r-1" none bcData abWorld (by decide)).2.2.2.2.2.2.2⟩

/-- C18: storing `F` and then `G` gives the same data map as storing the
right-biased merge of `F` and `G`; storing the empty (or nil) field set gives
the data map of the receiver; storing `F` twice gives the same data map as
storing it once; and the same equations hold for `Root`. -/
theorem data_merge_composes (L : Logger) (F G : Data) (w : World) :
    ((((L.Data F w).1.Data G (L.Data F w).2).2.read
        ((L.Data F w).1.Data G (L.Data F w).2).1.data).same
      ((L.Data (F.merge G) w).2.read (L.Data (F.merge G) w).1.data) ∧
    ((L.Data Data.empty w).2.read (L.Data Data.empty w).1.data).same (w.read L.data) ∧
    (((L.Data F w).1.Data F (L.Data F w).2).2.read
        ((L.Data F w).1.Data F (L.Data F w).2).1.data).same
      ((L.Data F w).2.read (L.Data F w).1.data)) ∧
    ((((L.Root F w).1.Root G (L.Root F w).2).2.read
        ((L.Root F w).1.Root G (L.Root F w).2).1.root).same
      ((L.Root (F.merge G) w).2.read (L.Root (F.merge G) w).1.root) ∧
    ((L.Root Data.empty w).2.read (L.Root Data.empty w).1.root).same (w.read L.root) ∧
    (((L.Root F w).1.Root F (L.Root F w).2).2.read
        ((L.Root F w).1.Root F (L.Root F w).2).1.root).same
      ((L.Root F w).2.read (L.Root F w).1.root)) := by
  simp only [Data_read, Root_read]
  exact ⟨⟨Data.same_merged_twice _ F G, Data.same_merged_empty _, Data.same_merged_again _ F⟩,
    ⟨Data.same_merged_twice _ F G, Data.same_merged_empty _, Data.same_merged_again _ F⟩⟩

/-- C19: for a logger of this package whose root keys are none of `timestamp`,
`host`, `release`, `id`, `data`, `error`, `nanoseconds`, `message`, `level`, the
names of the top-level fields of a rendered event are pairwise distinct, and
the fields are written in the order: `level`, the context fields, the root
fields, `id`, `data`, `error`, `nanoseconds`, `timestamp`, `message`, where
each of `id`, `data`, `error`, `message` is present or absent. -/
theorem top_level_names_distinct_and_ordered (L : Logger) (level : Level) (msg : String)
    (fs : List Data) (env : Env) (w : World) (os : OS) (wr : Writer)
    (hz : L.zl = newZL os wr)
    (hroot : ∀ k ∈ (w.read L.root).keys, k ∉ ["timestamp", "host", "release", "id", "data",
      "error", "nanoseconds", "message", "level"]) :
    ((rendered L level msg fs env w).fields.map Field.key).Nodup ∧
    (rendered L level msg fs env w).fields.map Field.key =
      ("level" :: L.zl.context.map Prod.fst) ++ (appendFields (w.read L.root)).map Prod.fst ++
      (if L.id ≠ "" then ["id"] else []) ++
      (if hasData (w.read L.data) fs then ["data"] else []) ++
      (if L.err.isSome then ["error"] else []) ++
      ["nanoseconds"] ++ ["timestamp"] ++ (if msg ≠ "" then ["message"] else []) ∧
    (∀ k, k ∈ (appendFields (w.read L.root)).map Prod.fst ↔ k ∈ (w.read L.root).keys) := by
  refine ⟨?_, rendered_keys L level msg fs env w, fun k => mem_keys_appendFields _ k⟩
  rw [rendered_keys, hz]
  have hR : ((appendFields (w.read L.root)).map Prod.fst).Nodup := appendFields_keys_nodup _
  have hnot : ∀ x, x ∈ ["timestamp", "host", "release", "id", "data", "error", "nanoseconds",
      "message", "level"] → x ∉ (appendFields (w.read L.root)).map Prod.fst := by
    intro x hx hxr
    exact hroot x ((mem_keys_appendFields _ x).mp hxr) hx
  have hsub : (("level" :: (newZL os wr).context.map Prod.fst) ++
      (appendFields (w.read L.root)).map Prod.fst ++
      (if L.id ≠ "" then ["id"] else []) ++
      (if hasData (w.read L.data) fs then ["data"] else []) ++
      (if L.err.isSome then ["error"] else []) ++
      ["nanoseconds"] ++ ["timestamp"] ++ (if msg ≠ "" then ["message"] else [])).Sublist
      (("level" :: ["host", "release"]) ++ (appendFields (w.read L.root)).map Prod.fst ++
        ["id"] ++ ["data"] ++ ["error"] ++ ["nanoseconds"] ++ ["timestamp"] ++ ["message"]) := by
    refine List.Sublist.append (List.Sublist.append (List.Sublist.append (List.Sublist.append
      (List.Sublist.append (List.Sublist.append (List.Sublist.append ?_ (List.Sublist.refl _))
        (ite_singleton_sublist _ _)) (ite_singleton_sublist _ _)) (ite_singleton_sublist _ _))
      (List.Sublist.refl _)) (List.Sublist.refl _)) (ite_singleton_sublist _ _)
    exact List.Sublist.cons₂ _ (newZL_context_sublist os wr)
  refine List.Nodup.sublist hsub ?_
  simp only [List.append_assoc, List.cons_append, List.nil_append]
  refine List.nodup_cons.mpr ⟨?_, List.nodup_cons.mpr ⟨?_, List.nodup_cons.mpr ⟨?_,
    List.nodup_append.mpr ⟨hR, by decide, ?_⟩⟩⟩⟩
  · simp only [List.mem_cons, List.mem_append, not_or]
    exact ⟨by decide, by decide, hnot _ (by decide), by decide⟩
  · simp only [List.mem_cons, List.mem_append, not_or]
    exact ⟨by decide, hnot _ (by decide), by decide⟩
  · simp only [List.mem_append, not_or]
    exact ⟨hnot _ (by decide), by decide⟩
  · intro x hx hy
    refine hnot x ?_ hx
    revert hy
    simp only [List.mem_cons, List.mem_singleton, List.not_mem_nil, or_false]
    rintro (h | h | h | h | h | h) <;> subst h <;> decide

/-- C19, at a concrete input: a logger with an id, an error, data and the
root entry `status_code`. -/
theorem top_level_names_distinct_and_ordered_witness :
    ((abLogger.ID "r-1").Err (some ErrNotFound)).zl = newZL sampleOS Writer.stdout ∧
    (∀ k ∈ ((((abLogger.ID "r-1").Err (some ErrNotFound)).Root statusData abWorld).2.read
        (((abLogger.ID "r-1").Err (some ErrNotFound)).Root statusData abWorld).1.root).keys,
      k ∉ ["timestamp", "host", "release", "id", "data", "error", "nanoseconds", "message",
        "level"]) ∧
    (rendered (((abLogger.ID "r-1").Err (some ErrNotFound)).Root statusData abWorld).1
      Level.info "m" [] sampleEnv
      (((abLogger.ID "r-1").Err (some ErrNotFound)).Root statusData abWorld).2).fields.map
        Field.key =
      ["level", "host", "status_code", "id", "data", "error", "nanoseconds", "timestamp",
        "message"] ∧
    ((rendered (((abLogger.ID "r-1").Err (some ErrNotFound)).Root statusData abWorld).1
      Level.info "m" [] sampleEnv
      (((abLogger.ID "r-1").Err (some ErrNotFound)).Root statusData abWorld).2).fields.map
        Field.key).Nodup :=
  ⟨rfl, by decide, by decide,
    (top_level_names_distinct_and_ordered
      (((abLogger.ID "r-1").Err (some ErrNotFound)).Root statusData abWorld).1
      Level.info "m" [] sampleEnv
      (((abLogger.ID "r-1").Err (some ErrNotFound)).Root statusData abWorld).2
      sampleOS Writer.stdout rfl (by decide)).1⟩

/-- C20: for every request whose `X-Forwarded-For` value is not empty, the
split of the value on `,` has at least one entry, the index `len(split)-1` is
in range, and the client address is defined, contains no comma and neither
starts nor ends with white space; and no run of the middleware panics. -/
theorem client_ip_index_in_range (req : Request) (m : Mw) (framework : HTTPErrorHandler)
    (next : HandlerFunc) (env : MwEnv) (s : St) :
    (req.header.Get "x-forwarded-for" ≠ "" →
      1 ≤ (Split ',' (req.header.Get "x-forwarded-for").data).length ∧
      (∃ last, (Split ',' (req.header.Get "x-forwarded-for").data)[
        (Split ',' (req.header.Get "x-forwarded-for").data).length - 1]? = some last) ∧
      ∃ ip, clientIP req = some ip ∧ ',' ∉ ip.data ∧
        (∀ c, ip.data.head? = some c → isSpace c = false) ∧
        (∀ c, ip.data.getLast? = some c → isSpace c = false)) ∧
    (∃ s' r, m.run framework next env s = some (s', r)) := by
  refine ⟨?_, run_isSome m framework next env s⟩
  intro hget
  obtain ⟨before, last, h1, _, _, _, h5⟩ :=
    Split_getLast ',' (req.header.Get "x-forwarded-for").data
  have hlast : (Split ',' (req.header.Get "x-forwarded-for").data).getLast
      (Split_ne_nil _ _) = last := by
    rw [List.getLast?_eq_getLast _ (Split_ne_nil _ _)] at h1
    exact Option.some.inj h1
  obtain ⟨pre, post, t1, _, _, t4, t5⟩ := TrimSpace_spec last
  refine ⟨?_, ⟨last, by rw [← List.getLast?_eq_getElem?]; exact h1⟩,
    String.mk (TrimSpace last), ?_, ?_, t4, t5⟩
  · exact Nat.one_le_iff_ne_zero.mpr (fun h => Split_ne_nil _ _ (List.length_eq_zero.mp h))
  · rw [clientIP_eq, if_pos hget, hlast]
  · intro hc
    apply h5
    rw [t1]
    simp only [List.mem_append]
    exact Or.inl (Or.inr hc)

/-- C20, at a concrete input: a value made of commas and white space gives
the empty address. -/
theorem client_ip_index_in_range_witness :
    blankForwardedRequest.header.Get "x-forwarded-for" ≠ "" ∧
    clientIP blankForwardedRequest = some "" ∧
    1 ≤ (Split ',' (blankForwardedRequest.header.Get "x-forwarded-for").data).length :=
  ⟨by decide, by decide,
    ((client_ip_index_in_range blankForwardedRequest sampleMw notFoundResponder notFoundHandler
      sampleMwEnv sampleSt).1 (by decide)).1⟩

end Goyagi
